import Mathlib

/-!
Verification of the film-club bot's session/voting/rating core.

The Python source is shallowly embedded: each relevant function becomes an
executable Lean definition over explicit record types that mirror the ORM
rows (`src/bot/database/models.py`).  Database tables are lists of rows kept
in insertion order, which is also `created_at` order, so SQL
`ORDER BY created_at` coincides with list order after filtering.  Status
rows (`session_statuses`) are assumed seeded, so a status-code lookup is
modelled by the `Status` enumeration directly.  External collaborators
(Telegram polls, the random module) are injected as parameters:
`rand` stands for `random.choice`, `tallies` for the per-option counts that
`stop_poll` reports, `newPoll` for the (message id, poll id) pair returned
when a poll is opened.
-/

namespace FilmBot

/-- Session status codes from `status_manager.py`. -/
inductive Status where
  | collecting
  | voting
  | rating
  | completed
deriving DecidableEq, Repr

/-- A row of the `movies` table (`models.Movie`).  Presentation-only columns
(title, year, genres, description, poster, kinopoisk rating, url) are
omitted: no claim depends on them. -/
structure MovieRow where
  id : Nat
  sessionId : Nat
  userId : Nat
  slot : Nat
  kinopoiskId : String
  clubRating : Option ℚ
deriving DecidableEq, Repr

/-- A row of the `votes` table (`models.Vote`). -/
structure VoteRow where
  sessionId : Nat
  movieId : Nat
  userId : Nat
deriving DecidableEq, Repr

/-- A row of the `ratings` table (`models.Rating`). -/
structure RatingRow where
  sessionId : Nat
  movieId : Nat
  userId : Nat
  rating : Int
deriving DecidableEq, Repr

/-- The per-slot columns of a `sessions` row that the voting engine touches:
`poll_slot{n}_message_id`, `poll_slot{n}_id`, `poll_slot{n}_movie_ids`
(the serialized ordered candidate-id list) and `winner_slot{n}_id`. -/
structure SlotRefs where
  pollMessageId : Option Nat
  pollId : Option Nat
  movieIds : Option (List Nat)
  winnerId : Option Nat
deriving DecidableEq, Repr

/-- Slot columns of a fresh session: everything null. -/
def emptySlotRefs : SlotRefs := ⟨none, none, none, none⟩

/-- A row of the `sessions` table (`models.Session`), restricted to the
columns the claims touch. -/
structure SessionRow where
  id : Nat
  status : Status
  slot1 : SlotRefs
  slot2 : SlotRefs
  votingStartedAt : Option Nat
  completedAt : Option Nat
deriving DecidableEq, Repr

/-- Read the slot columns for slot `n`, mirroring `SLOT_ATTRS` in
`handlers/voting.py` (slot 1 vs slot 2 attribute names). -/
def SessionRow.slotRefs (s : SessionRow) (n : Nat) : SlotRefs :=
  if n = 1 then s.slot1 else s.slot2

/-- Write the slot columns for slot `n`. -/
def SessionRow.setSlotRefs (s : SessionRow) (n : Nat) (r : SlotRefs) : SessionRow :=
  if n = 1 then { s with slot1 := r } else { s with slot2 := r }

/-- The store as seen by the single-session workflow handlers: the active
session plus the movie/vote/rating tables. -/
structure Store where
  session : SessionRow
  movies : List MovieRow
  votes : List VoteRow
  ratings : List RatingRow
deriving DecidableEq, Repr

/-- `SELECT movies WHERE session_id = :sid` (`_load_all_session_movies`). -/
def sessionMovies (st : Store) : List MovieRow :=
  st.movies.filter (fun m => m.sessionId == st.session.id)

/-- Movies of the active session in slot `n`
(the `[m for m in all_movies if m.slot == slot_num]` filter and
`_load_slot_movies`). -/
def slotMovies (st : Store) (n : Nat) : List MovieRow :=
  st.movies.filter (fun m => m.sessionId == st.session.id && m.slot == n)

/-- Ids of the active session's movies. -/
def sessionMovieIdList (st : Store) : List Nat :=
  (sessionMovies st).map (fun m => m.id)

/-- Ids of the active session's movies in slot `n`. -/
def slotMovieIdList (st : Store) (n : Nat) : List Nat :=
  (slotMovies st n).map (fun m => m.id)

/-!  ## Voting resolution engine (`services/voting_logic.py`)

A Python dict `movie_id -> count` is embedded as an association list in
insertion order; dict keys are necessarily distinct, which theorems record
as a `Nodup` hypothesis on the key list where it matters. -/

/-- `max(vote_counts.values())`; vote counts are non-negative, so folding
`Nat.max` from `0` computes the same maximum on a non-empty list. -/
def maxVotes (vc : List (Nat × Nat)) : Nat :=
  (vc.map Prod.snd).foldl Nat.max 0

/-- `[movie_id for movie_id, votes in vote_counts.items() if votes == max_votes]`. -/
def winnersOf (vc : List (Nat × Nat)) : List Nat :=
  (vc.filter (fun p => p.2 = maxVotes vc)).map Prod.fst

/-- `determine_winner` from `services/voting_logic.py`.  `rand` models
`random.choice` on the key list. -/
def determine_winner (rand : List Nat → Nat) (vc : List (Nat × Nat)) :
    Option (List Nat) × Bool :=
  if vc = [] then (none, false)
  else if maxVotes vc = 0 then (some [rand (vc.map Prod.fst)], false)
  else (some (winnersOf vc), decide (1 < (winnersOf vc).length))

/-!  ## Closing a vote (`handlers/voting.py`)

`stop_poll` is modelled as succeeding, its per-option tallies supplied by
the `tallies` parameter (slot number to counts, one per poll option, in
option order, as Telegram reports them). -/

/-- `_extract_vote_counts`: pair position `i` of the stored ordered id list
with option `i` of the poll result; positions beyond either list are
dropped. -/
def extractVoteCounts (pollMovieIds : List Nat) (tallies : List Nat) :
    List (Nat × Nat) :=
  pollMovieIds.zip tallies

/-- `_clear_votes_for_slot`: delete all votes of the active session whose
movie is among the given slot's movie ids. -/
def clearVotesForSlot (st : Store) (slotIds : List Nat) : Store :=
  let keep := fun (v : VoteRow) =>
    !(v.sessionId == st.session.id && slotIds.contains v.movieId)
  { st with votes := st.votes.filter keep }

/-- `_resolve_poll`: stop the slot's poll, evaluate tallies through
`determine_winner`; on a tie clear the slot's votes, persist the tied ids
(restricted to ids still present among the session's movies) as the pending
set and null the poll handles; on a winner store the winner id and null all
poll columns.  Returns the updated store and the tie flag. -/
def resolvePoll (rand : List Nat → Nat) (tal : List Nat) (st : Store)
    (n : Nat) : Store × Bool :=
  let refs := st.session.slotRefs n
  let pollMovieIds := refs.movieIds.getD []
  let voteCounts := extractVoteCounts pollMovieIds tal
  let res := determine_winner rand voteCounts
  if res.2 then
    let tied := (res.1.getD []).filter
      (fun mid => (sessionMovieIdList st).contains mid)
    let st1 := clearVotesForSlot st (slotMovieIdList st n)
    let refs1 : SlotRefs :=
      { refs with pollMessageId := none, pollId := none, movieIds := some tied }
    ({ st1 with session := st1.session.setSlotRefs n refs1 }, true)
  else
    match res.1 with
    | some (w :: _) =>
        ({ st with session := st.session.setSlotRefs n ⟨none, none, none, some w⟩ },
          false)
    | _ => (st, false)

/-- `_process_slot_result` combined with the `if not slot_movies: continue`
guard of `finish_voting`: a slot with no candidates is skipped; an open
poll is resolved; an existing winner still present among the session's
movies is reported as already resolved; otherwise a non-empty pending set
reports a tie awaiting revote, and the remaining (single-candidate
auto-win) case reports resolved.  Only `_resolve_poll` mutates state. -/
def processSlot (rand : List Nat → Nat) (tallies : Nat → List Nat)
    (st : Store) (n : Nat) : Store × Bool :=
  if (slotMovies st n).isEmpty then (st, false)
  else
    let refs := st.session.slotRefs n
    if refs.pollMessageId.isSome then
      resolvePoll rand (tallies n) st n
    else
      match refs.winnerId with
      | some w =>
          if (sessionMovieIdList st).contains w then (st, false)
          else if (refs.movieIds.getD []).isEmpty then (st, false)
          else (st, true)
      | none =>
          if (refs.movieIds.getD []).isEmpty then (st, false)
          else (st, true)

/-- `finish_voting`: requires a session in `voting` (otherwise a no-op with
no revote prompt), processes slot 1 then slot 2, and advances the session
to `rating` exactly when no slot reported a tie.  The returned flag is
`has_any_tie`, i.e. whether the user is told a revote is required. -/
def finish_voting (rand : List Nat → Nat) (tallies : Nat → List Nat)
    (st : Store) : Store × Bool :=
  if st.session.status ≠ Status.voting then (st, false)
  else
    let p1 := processSlot rand tallies st 1
    let p2 := processSlot rand tallies p1.1 2
    if p1.2 || p2.2 then (p2.1, true)
    else
      let s2 := p2.1.session
      ({ p2.1 with session := { s2 with status := Status.rating } }, false)

/-!  ### Resolvedness and wellformedness of a voting-state slot -/

/-- A slot's columns are resolved: a winner is recorded and no pending
tied-candidate set remains. -/
def slotResolvedRefs (r : SlotRefs) : Prop :=
  r.winnerId.isSome = true ∧ r.movieIds.getD [] = []

/-- The slot of a store is resolved (claim C3's "has a decided or auto-won
winner and no pending tie"). -/
def slotResolved (st : Store) (n : Nat) : Prop :=
  slotResolvedRefs (st.session.slotRefs n)

/-- Wellformedness of one slot of a session sitting in `voting`, as
established by the normal flow (`start_voting`, `_resolve_poll`,
`_collect_revote_slots`): an open poll stores a non-empty duplicate-free
ordered id list drawn from the slot's candidates, has one tally per
option, and no winner yet; a recorded winner (poll closed) is one of the
session's candidates and the pending set is cleared; and a slot that has
candidates is in one of the three states open-poll / has-winner /
pending-revote. -/
def SlotWF (st : Store) (tallies : Nat → List Nat) (n : Nat) : Prop :=
  ((st.session.slotRefs n).pollMessageId.isSome = true →
      (st.session.slotRefs n).movieIds ≠ none ∧
      (st.session.slotRefs n).movieIds.getD [] ≠ [] ∧
      ((st.session.slotRefs n).movieIds.getD []).Nodup ∧
      (∀ i ∈ (st.session.slotRefs n).movieIds.getD [],
        i ∈ slotMovieIdList st n) ∧
      (tallies n).length = ((st.session.slotRefs n).movieIds.getD []).length ∧
      (st.session.slotRefs n).winnerId = none) ∧
  ((st.session.slotRefs n).winnerId.isSome = true ∧
      (st.session.slotRefs n).pollMessageId = none →
      (st.session.slotRefs n).winnerId.getD 0 ∈ sessionMovieIdList st ∧
      (st.session.slotRefs n).movieIds = none) ∧
  (slotMovies st n ≠ [] →
      (st.session.slotRefs n).pollMessageId.isSome = true ∨
      (st.session.slotRefs n).winnerId.isSome = true ∨
      (st.session.slotRefs n).movieIds.getD [] ≠ [])

instance (st : Store) (tallies : Nat → List Nat) (n : Nat) :
    Decidable (SlotWF st tallies n) := by
  unfold SlotWF
  infer_instance

/-!  ## Advancing to voting (`start_voting`, `_classify_slots`) -/

/-- Outcome reported by `start_voting`. -/
inductive StartResult where
  | noSession
  | noMovies
  | autoResolved
  | votingStarted
deriving DecidableEq, Repr

/-- One slot's branch of `_classify_slots`: two or more candidates need a
poll; exactly one is an immediate auto-winner written to
`winner_slot{n}_id`; zero candidates leave the slot untouched.  The
returned flag says whether a poll must be created. -/
def classifySlot (sess : SessionRow) (n : Nat) (ms : List MovieRow) :
    SessionRow × Bool :=
  match ms with
  | [] => (sess, false)
  | [m] =>
      (sess.setSlotRefs n { sess.slotRefs n with winnerId := some m.id },
        false)
  | _ => (sess, true)

/-- `_set_slot_poll`: store the poll message id, external poll id, and the
serialized ordered candidate-id list on the session. -/
def setSlotPoll (sess : SessionRow) (n : Nat) (pollMsgId pollId : Nat)
    (ms : List MovieRow) : SessionRow :=
  sess.setSlotRefs n
    { sess.slotRefs n with
        pollMessageId := some pollMsgId, pollId := some pollId,
        movieIds := some (ms.map (fun m => m.id)) }

/-- `start_voting`: requires a session in `collecting`; refuses when there
is not a single candidate; classifies both slots; when no slot needs a
poll the session jumps directly to `rating` (no voting-start timestamp),
otherwise polls are created for the slots that need one, the session
enters `voting` and `voting_started_at` is stamped.  `newPoll n` supplies
the (message id, poll id) Telegram returns for slot `n`'s poll, `now` the
current time. -/
def start_voting (newPoll : Nat → Nat × Nat) (now : Nat) (st : Store) :
    Store × StartResult :=
  if st.session.status ≠ Status.collecting then (st, StartResult.noSession)
  else
    let m1 := slotMovies st 1
    let m2 := slotMovies st 2
    if m1.length + m2.length < 1 then (st, StartResult.noMovies)
    else
      let c1 := classifySlot st.session 1 m1
      let c2 := classifySlot c1.1 2 m2
      if c1.2 = false ∧ c2.2 = false then
        ({ st with session := { c2.1 with status := Status.rating } },
          StartResult.autoResolved)
      else
        let s1 := if c1.2 then setSlotPoll c2.1 1 (newPoll 1).1 (newPoll 1).2 m1
          else c2.1
        let s2 := if c2.2 then setSlotPoll s1 2 (newPoll 2).1 (newPoll 2).2 m2
          else s1
        ({ st with session :=
            { s2 with status := Status.voting, votingStartedAt := some now } },
          StartResult.votingStarted)

/-- A collecting-state session with no candidates at all (concrete input
for claim C5's boundary case). -/
def stC5empty : Store :=
  ⟨⟨1, Status.collecting, emptySlotRefs, emptySlotRefs, none, none⟩, [], [], []⟩

/-- A collecting-state session with exactly one candidate in slot 1 and
none in slot 2 (the spec's auto-win test). -/
def stC5auto : Store :=
  ⟨⟨1, Status.collecting, emptySlotRefs, emptySlotRefs, none, none⟩,
    [⟨5, 1, 100, 1, "kp5", none⟩], [], []⟩

/-- A voting-state session with an open two-candidate poll on slot 1 and an
empty slot 2 (concrete input for the close-voting claims). -/
def stVote : Store :=
  ⟨⟨1, Status.voting,
      ⟨some 10, some 11, some [1, 2], none⟩, emptySlotRefs, some 3, none⟩,
    [⟨1, 1, 100, 1, "k1", none⟩, ⟨2, 1, 101, 1, "k2", none⟩],
    [⟨1, 1, 100⟩, ⟨1, 2, 101⟩], []⟩

/-- Poll tallies where candidate 1 beats candidate 2 (5 votes to 3). -/
def talWin : Nat → List Nat := fun n => if n = 1 then [5, 3] else []

/-- Poll tallies where candidates 1 and 2 tie 3-3. -/
def talTie : Nat → List Nat := fun n => if n = 1 then [3, 3] else []

/-!  ## Manual winner assignment (`handlers/admin.py`,
`admin_set_winner_cmd`) -/

/-- `get_movie_by_id`: primary-key lookup (ids are unique). -/
def get_movie_by_id (movies : List MovieRow) (movieId : Nat) :
    Option MovieRow :=
  movies.find? (fun m => m.id == movieId)

/-- `admin_set_winner_cmd`: looks up the movie by the id typed in the
`/set_winner_<id>` command (any movie in the table, with no session or
slot check) and writes it into `winner_slot1_id` when the remembered slot
is 1, otherwise into `winner_slot2_id`.  Aborts when the movie is not
found. -/
def admin_set_winner_cmd (st : Store) (slot : Option Nat) (movieId : Nat) :
    Store :=
  match get_movie_by_id st.movies movieId with
  | none => st
  | some m =>
      if slot = some 1 then
        let r1 := { st.session.slotRefs 1 with winnerId := some m.id }
        { st with session := st.session.setSlotRefs 1 r1 }
      else
        let r2 := { st.session.slotRefs 2 with winnerId := some m.id }
        { st with session := st.session.setSlotRefs 2 r2 }

/-- The spec's winner invariant for slot `n`: a non-null winner reference
points at a movie of the same session in that slot. -/
def winnerOkB (movies : List MovieRow) (sid n : Nat) : Option Nat → Bool
  | none => true
  | some w =>
      movies.any (fun m => m.id == w && m.sessionId == sid && m.slot == n)

/-- The spec's winner invariant for both slots of the active session. -/
def WinnerInvariant (st : Store) : Prop :=
  winnerOkB st.movies st.session.id 1 (st.session.slotRefs 1).winnerId =
    true ∧
  winnerOkB st.movies st.session.id 2 (st.session.slotRefs 2).winnerId =
    true

/-- A store whose active session (id 1) satisfies the winner invariant but
whose movie table still holds movie 7 of another session (id 2, slot 2),
as legitimately left behind by a completed historical session. -/
def stC6 : Store :=
  ⟨⟨1, Status.voting, emptySlotRefs, emptySlotRefs, none, none⟩,
    [⟨7, 2, 5, 2, "kp7", none⟩], [], []⟩

/-!  ## Proposals (`handlers/proposals.py`) -/

/-- Result of a proposal attempt.  A duplicate rejection carries the
existing proposer's user id, from which the handler renders the
"already proposed by ..." message. -/
inductive ProposeResult where
  | noSession
  | duplicate (existingProposerId : Nat)
  | added (movieId : Nat)
deriving DecidableEq, Repr

/-- `_check_duplicate`: first (and by the `uq_session_kinopoisk` unique
constraint, only) movie of the active session carrying the proposed
catalog id, regardless of slot or proposer. -/
def check_duplicate (st : Store) (kid : String) : Option MovieRow :=
  st.movies.find?
    (fun m => m.sessionId == st.session.id && m.kinopoiskId == kid)

/-- `_replace_old_movie_in_slot`: delete the proposer's previous candidate
in this (session, slot), if any. -/
def replace_old_movie_in_slot (st : Store) (userId slot : Nat) : Store :=
  match st.movies.find? (fun m =>
      m.sessionId == st.session.id && m.userId == userId &&
        m.slot == slot) with
  | none => st
  | some old => { st with movies := st.movies.filter (fun m => m.id != old.id) }

/-- The propose pipeline (`propose_url_received` followed by
`handle_slot_selection`, run back-to-back under the single-writer
assumption): requires a collecting session; rejects a catalog id already
present in the session, naming the existing proposer and changing
nothing; otherwise replaces the proposer's previous candidate in the slot
and inserts the new row (fresh primary key `newId`). -/
def propose (newId : Nat) (st : Store) (userId slot : Nat) (kid : String) :
    Store × ProposeResult :=
  if st.session.status ≠ Status.collecting then (st, ProposeResult.noSession)
  else
    match check_duplicate st kid with
    | some existing => (st, ProposeResult.duplicate existing.userId)
    | none =>
        let st1 := replace_old_movie_in_slot st userId slot
        let newMovie : MovieRow :=
          ⟨newId, st.session.id, userId, slot, kid, none⟩
        ({ st1 with movies := st1.movies ++ [newMovie] },
          ProposeResult.added newId)

/-- A collecting session that already contains catalog id "kp42",
proposed by user 100 in slot 1. -/
def stC7 : Store :=
  ⟨⟨1, Status.collecting, emptySlotRefs, emptySlotRefs, none, none⟩,
    [⟨3, 1, 100, 1, "kp42", none⟩], [], []⟩

/-!  ## Candidate deletion (`repositories.delete_movie_by_id`) -/

/-- The whole store, with every session, as `delete_movie_by_id` sees it
(the deleted movie's parent session is reached through the
`movie.session` relationship). -/
structure DB where
  sessions : List SessionRow
  movies : List MovieRow
  votes : List VoteRow
  ratings : List RatingRow
deriving DecidableEq, Repr

/-- Null whichever winner references of a session point at the movie. -/
def clearWinnerRefs (s : SessionRow) (mid : Nat) : SessionRow :=
  let s1 :=
    if s.slot1.winnerId = some mid then
      { s with slot1 := { s.slot1 with winnerId := none } }
    else s
  if s1.slot2.winnerId = some mid then
    { s1 with slot2 := { s1.slot2 with winnerId := none } }
  else s1

/-- `delete_movie_by_id`: look the movie up by primary key; when absent
return `false` and change nothing; otherwise null the parent session's
winner references that point at it, delete every `Rating` and `Vote`
referencing it, delete the movie row, and return `true`. -/
def delete_movie_by_id (db : DB) (mid : Nat) : DB × Bool :=
  match db.movies.find? (fun m => m.id == mid) with
  | none => (db, false)
  | some movie =>
      (⟨db.sessions.map (fun s =>
          if s.id == movie.sessionId then clearWinnerRefs s mid else s),
        db.movies.filter (fun m => m.id != mid),
        db.votes.filter (fun v => v.movieId != mid),
        db.ratings.filter (fun r => r.movieId != mid)⟩, true)

/-- How one session row looks after deleting movie `mid` whose parent is
`parentId`: other sessions are untouched; the parent keeps every column
except that a winner reference equal to the deleted id is nulled. -/
def sessionAfterDelete (parentId mid : Nat) (s s' : SessionRow) : Prop :=
  s'.id = s.id ∧ s'.status = s.status ∧
  s'.votingStartedAt = s.votingStartedAt ∧ s'.completedAt = s.completedAt ∧
  s'.slot1.pollMessageId = s.slot1.pollMessageId ∧
  s'.slot1.pollId = s.slot1.pollId ∧
  s'.slot1.movieIds = s.slot1.movieIds ∧
  s'.slot2.pollMessageId = s.slot2.pollMessageId ∧
  s'.slot2.pollId = s.slot2.pollId ∧
  s'.slot2.movieIds = s.slot2.movieIds ∧
  s'.slot1.winnerId =
    (if s.id = parentId ∧ s.slot1.winnerId = some mid then none
      else s.slot1.winnerId) ∧
  s'.slot2.winnerId =
    (if s.id = parentId ∧ s.slot2.winnerId = some mid then none
      else s.slot2.winnerId)

/-- A store with a finished session whose slot-1 winner is movie 5 and
slot-2 winner is movie 7, plus a second (historical) session; votes and
ratings exist for both winners. -/
def dbC8 : DB :=
  ⟨[⟨1, Status.rating, ⟨none, none, none, some 5⟩, ⟨none, none, none, some 7⟩,
      none, none⟩,
    ⟨2, Status.completed, emptySlotRefs, emptySlotRefs, none, none⟩],
    [⟨5, 1, 100, 1, "a", none⟩, ⟨7, 1, 101, 2, "b", none⟩],
    [⟨1, 7, 100⟩, ⟨1, 5, 100⟩],
    [⟨1, 7, 100, 8⟩, ⟨1, 5, 101, 6⟩]⟩

/-!  ## Ratings (`handlers/rating.py`, `repositories.recalc_club_rating`)

Python's `round(x, 2)` rounds half to even; it is modelled exactly on
rationals (the binary floating-point representation error of CPython
floats is outside the embedding). -/

/-- Round a rational to the nearest integer, halves to the even integer. -/
def halfEven (q : ℚ) : ℤ :=
  let f := ⌊q⌋
  let r := q - f
  if r < 1 / 2 then f
  else if 1 / 2 < r then f + 1
  else if f % 2 = 0 then f else f + 1

/-- `round(q, 2)`. -/
def roundTo2 (q : ℚ) : ℚ := ((halfEven (q * 100) : ℚ)) / 100

/-- The `(session, candidate, participant)` key of a rating row. -/
def ratingTriple (sid mid uid : Nat) (r : RatingRow) : Bool :=
  r.sessionId == sid && r.movieId == mid && r.userId == uid

/-- The value `recalc_club_rating` stores: SQL `AVG` over the movie's
ratings (`None` on no rows), and Python's `if avg` also maps an average
of exactly zero to `None`; otherwise the mean rounded to 2 decimals. -/
def clubAvg (ratings : List RatingRow) (mid : Nat) : Option ℚ :=
  let rs := ratings.filter (fun r => r.movieId == mid)
  if rs.isEmpty then none
  else
    let a : ℚ := ((rs.map (fun r => (r.rating : ℚ))).sum) / (rs.length : ℚ)
    if a = 0 then none else some (roundTo2 a)

/-- `recalc_club_rating`: store `clubAvg` on the movie row (primary-key
lookup; ids are unique). -/
def recalc_club_rating (st : Store) (movieId : Nat) : Store :=
  let avgOpt := clubAvg st.ratings movieId
  { st with movies := st.movies.map (fun m =>
      if m.id == movieId then { m with clubRating := avgOpt } else m) }

/-- The upsert half of `_save_or_update_rating`: update the existing row
for the `(session, movie, user)` triple in place (the
`uq_session_movie_user_rating` unique constraint guarantees at most one),
or insert a fresh row. -/
def upsertRating (st : Store) (movieId userId : Nat) (value : Int) : Store :=
  if st.ratings.any (ratingTriple st.session.id movieId userId) then
    { st with ratings := st.ratings.map (fun r =>
        if ratingTriple st.session.id movieId userId r then
          { r with rating := value }
        else r) }
  else
    { st with ratings :=
        st.ratings ++ [⟨st.session.id, movieId, userId, value⟩] }

/-- `_save_or_update_rating`: upsert the rating, then recompute and store
the movie's club average. -/
def save_or_update_rating (st : Store) (movieId userId : Nat)
    (value : Int) : Store :=
  recalc_club_rating (upsertRating st movieId userId value) movieId

/-- A rating-state session where movie 5 already has a rating of 7 from
user 2; user 3 will rate it 7 and then 9. -/
def stC9 : Store :=
  ⟨⟨1, Status.rating, ⟨none, none, none, some 5⟩, emptySlotRefs, none, none⟩,
    [⟨5, 1, 100, 1, "kp5", none⟩], [], [⟨1, 5, 2, 7⟩]⟩

/-!  ## `_load_movies_by_ids` (`handlers/voting.py`) -/

/-- `_load_movies_by_ids`: select the rows whose id is in the list, build
`{m.id: m for m in rows}` (later rows overwrite earlier ones, hence the
lookup finds the last row with the id — ids are primary keys, so at most
one exists), then emit `movies_by_id[mid]` for each requested id that is
present, in the order of the id list. -/
def load_movies_by_ids (movies : List MovieRow) (ids : List Nat) :
    List MovieRow :=
  ids.filterMap (fun mid => movies.reverse.find? (fun m => m.id == mid))

/-- `calculate_average_rating` helper: folding `Nat.max` over a list is the
maximum of the accumulator and the fold from `0`. -/
theorem foldl_max_acc (l : List Nat) :
    ∀ a : Nat, l.foldl Nat.max a = Nat.max a (l.foldl Nat.max 0) := by
  induction l with
  | nil => intro a; simp
  | cons x xs ih =>
      intro a
      simp only [List.foldl_cons]
      rw [ih (Nat.max a x), ih (Nat.max 0 x)]
      simp only [Nat.max_def]
      split_ifs <;> omega

/-- The maximum computed by `maxVotes` is attained on a non-empty list. -/
theorem foldl_max_mem (l : List Nat) (h : l ≠ []) : l.foldl Nat.max 0 ∈ l := by
  induction l with
  | nil => exact absurd rfl h
  | cons x xs ih =>
      simp only [List.foldl_cons]
      rw [foldl_max_acc xs (Nat.max 0 x)]
      have hzx : Nat.max 0 x = x := by
        simp [Nat.max_def]
      rw [hzx]
      by_cases hxs : xs = []
      · subst hxs
        simp only [List.foldl_nil]
        have : Nat.max x 0 = x := by simp [Nat.max_def]
        rw [this]
        exact List.mem_singleton.mpr rfl
      · rcases Nat.le_total x (xs.foldl Nat.max 0) with hle | hle
        · have : Nat.max x (xs.foldl Nat.max 0) = xs.foldl Nat.max 0 := by
            simp [Nat.max_def, hle]
          rw [this]
          exact List.mem_cons_of_mem x (ih hxs)
        · have : Nat.max x (xs.foldl Nat.max 0) = x := by
            simp only [Nat.max_def]
            split_ifs with hif
            · omega
            · rfl
          rw [this]
          exact List.mem_cons_self x xs

/-- On a non-empty count list the winner list is non-empty: the maximum is
attained by some candidate. -/
theorem winnersOf_ne_nil (vc : List (Nat × Nat)) (h : vc ≠ []) :
    winnersOf vc ≠ [] := by
  have hmap : vc.map Prod.snd ≠ [] := by
    intro hc; exact h (List.map_eq_nil_iff.mp hc)
  have hmem : maxVotes vc ∈ vc.map Prod.snd := foldl_max_mem _ hmap
  rcases List.mem_map.mp hmem with ⟨p, hp, hpv⟩
  have : p.1 ∈ winnersOf vc := by
    unfold winnersOf
    exact List.mem_map_of_mem Prod.fst
      (List.mem_filter.mpr ⟨hp, by simp [hpv]⟩)
  intro hnil
  rw [hnil] at this
  exact List.not_mem_nil _ this

/-- Membership in the winner list is exactly achieving the maximum count. -/
theorem mem_winnersOf (vc : List (Nat × Nat)) (i : Nat) :
    i ∈ winnersOf vc ↔ (i, maxVotes vc) ∈ vc := by
  unfold winnersOf
  constructor
  · intro h
    rcases List.mem_map.mp h with ⟨p, hp, hpi⟩
    rcases List.mem_filter.mp hp with ⟨hpv, hmax⟩
    have : p.2 = maxVotes vc := by simpa using hmax
    have hpair : p = (i, maxVotes vc) := by
      cases p; simp_all
    rw [hpair] at hpv; exact hpv
  · intro h
    exact List.mem_map_of_mem Prod.fst (List.mem_filter.mpr ⟨h, by simp⟩)

/-- The winner list has no duplicates when the keys do not. -/
theorem winnersOf_nodup (vc : List (Nat × Nat))
    (hnd : (vc.map Prod.fst).Nodup) : (winnersOf vc).Nodup := by
  unfold winnersOf
  exact hnd.sublist (List.Sublist.map Prod.fst (List.filter_sublist vc))

/-- C1. For a vote-count mapping whose maximum count is positive,
`determine_winner` returns exactly the candidates achieving the maximum (no
more, no fewer), the list of winners is duplicate free, the tie flag is
set exactly when more than one candidate achieves the maximum, and a
singleton winner list is returned as the decided winner with no tie. -/
theorem determine_winner_max_pos (rand : List Nat → Nat)
    (vc : List (Nat × Nat)) (hnd : (vc.map Prod.fst).Nodup)
    (hpos : 0 < maxVotes vc) :
    determine_winner rand vc =
      (some (winnersOf vc), decide (1 < (winnersOf vc).length)) ∧
    (∀ i : Nat, i ∈ winnersOf vc ↔ (i, maxVotes vc) ∈ vc) ∧
    (winnersOf vc).Nodup ∧
    ((determine_winner rand vc).2 = true ↔ 1 < (winnersOf vc).length) ∧
    (∀ w : Nat, winnersOf vc = [w] →
      determine_winner rand vc = (some [w], false)) := by
  have hne : vc ≠ [] := by
    intro h; rw [h] at hpos; simp [maxVotes] at hpos
  have hmax : maxVotes vc ≠ 0 := Nat.pos_iff_ne_zero.mp hpos
  have heq : determine_winner rand vc =
      (some (winnersOf vc), decide (1 < (winnersOf vc).length)) := by
    unfold determine_winner
    rw [if_neg hne, if_neg hmax]
  refine ⟨heq, fun i => mem_winnersOf vc i, winnersOf_nodup vc hnd, ?_, ?_⟩
  · rw [heq]; simp
  · intro w hw
    rw [heq, hw]; simp

/-- Closed witness for `determine_winner_max_pos` at the spec's example
`{1: 5, 2: 3, 3: 2}`. -/
theorem determine_winner_max_pos_witness :
    (([((1 : Nat), (5 : Nat)), (2, 3), (3, 2)].map Prod.fst).Nodup ∧
      0 < maxVotes [(1, 5), (2, 3), (3, 2)]) ∧
    (determine_winner (fun _ => 0) [(1, 5), (2, 3), (3, 2)] =
        (some (winnersOf [(1, 5), (2, 3), (3, 2)]),
          decide (1 < (winnersOf [(1, 5), (2, 3), (3, 2)]).length)) ∧
      (∀ i : Nat, i ∈ winnersOf [(1, 5), (2, 3), (3, 2)] ↔
        (i, maxVotes [(1, 5), (2, 3), (3, 2)]) ∈ [(1, 5), (2, 3), (3, 2)]) ∧
      (winnersOf [(1, 5), (2, 3), (3, 2)]).Nodup ∧
      ((determine_winner (fun _ => 0) [(1, 5), (2, 3), (3, 2)]).2 = true ↔
        1 < (winnersOf [(1, 5), (2, 3), (3, 2)]).length) ∧
      (∀ w : Nat, winnersOf [(1, 5), (2, 3), (3, 2)] = [w] →
        determine_winner (fun _ => 0) [(1, 5), (2, 3), (3, 2)] =
          (some [w], false))) :=
  ⟨⟨by decide, by decide⟩,
    determine_winner_max_pos (fun _ => 0) [(1, 5), (2, 3), (3, 2)]
      (by decide) (by decide)⟩

/-- C2. The empty mapping resolves to no winner and no tie; a non-empty
all-zero mapping resolves to a single randomly chosen candidate from the
mapping's keys, not reported as a tie.  The hypothesis on `rand` is the
contract of `random.choice`: it returns a member of its argument. -/
theorem determine_winner_zero_votes (rand : List Nat → Nat)
    (hrand : ∀ l : List Nat, l ≠ [] → rand l ∈ l)
    (vc : List (Nat × Nat)) (hzero : ∀ p ∈ vc, p.2 = 0) :
    determine_winner rand [] = (none, false) ∧
    (vc ≠ [] →
      determine_winner rand vc = (some [rand (vc.map Prod.fst)], false) ∧
      rand (vc.map Prod.fst) ∈ vc.map Prod.fst) := by
  constructor
  · unfold determine_winner; simp
  · intro hne
    have hmax : maxVotes vc = 0 := by
      unfold maxVotes
      have : ∀ x ∈ vc.map Prod.snd, x = 0 := by
        intro x hx
        rcases List.mem_map.mp hx with ⟨p, hp, hpx⟩
        rw [← hpx]; exact hzero p hp
      have hmem := foldl_max_mem (vc.map Prod.snd)
        (fun hc => hne (List.map_eq_nil_iff.mp hc))
      exact this _ hmem
    constructor
    · unfold determine_winner
      rw [if_neg hne, if_pos hmax]
    · exact hrand _ (fun hc => hne (List.map_eq_nil_iff.mp hc))

/-- Closed witness for `determine_winner_zero_votes` at `{1: 0, 2: 0}` with
`random.choice` modelled as picking the head. -/
theorem determine_winner_zero_votes_witness :
    ((∀ l : List Nat, l ≠ [] → l.headD 0 ∈ l) ∧
      (∀ p ∈ [((1 : Nat), (0 : Nat)), (2, 0)], p.2 = 0) ∧
      ([((1 : Nat), (0 : Nat)), (2, 0)] ≠ [])) ∧
    (determine_winner (fun l => l.headD 0) [] = (none, false) ∧
      (determine_winner (fun l => l.headD 0) [(1, 0), (2, 0)] =
        (some [([((1 : Nat), (0 : Nat)), (2, 0)].map Prod.fst).headD 0],
          false) ∧
      ([((1 : Nat), (0 : Nat)), (2, 0)].map Prod.fst).headD 0 ∈
        [((1 : Nat), (0 : Nat)), (2, 0)].map Prod.fst)) := by
  have hhead : ∀ l : List Nat, l ≠ [] → l.headD 0 ∈ l := by
    intro l hl
    cases l with
    | nil => exact absurd rfl hl
    | cons x xs => simp
  have h := determine_winner_zero_votes (fun l => l.headD 0) hhead
    [(1, 0), (2, 0)] (by decide)
  exact ⟨⟨hhead, by decide, by decide⟩, h.1, h.2 (by decide)⟩

/-!  ### Structural lemmas about slot access -/

theorem slotRefs_setSlotRefs_self (s : SessionRow) (n : Nat) (r : SlotRefs) :
    (s.setSlotRefs n r).slotRefs n = r := by
  unfold SessionRow.setSlotRefs SessionRow.slotRefs
  by_cases h : n = 1 <;> simp [h]

theorem slotRefs_setSlotRefs_other (s : SessionRow) (r : SlotRefs)
    {n m : Nat} (hn : n = 1 ∨ n = 2) (hm : m = 1 ∨ m = 2) (hnm : n ≠ m) :
    (s.setSlotRefs n r).slotRefs m = s.slotRefs m := by
  unfold SessionRow.setSlotRefs SessionRow.slotRefs
  rcases hn with h | h <;> rcases hm with g | g <;> subst_vars <;> simp_all

theorem setSlotRefs_id (s : SessionRow) (n : Nat) (r : SlotRefs) :
    (s.setSlotRefs n r).id = s.id := by
  unfold SessionRow.setSlotRefs; split <;> rfl

theorem setSlotRefs_status (s : SessionRow) (n : Nat) (r : SlotRefs) :
    (s.setSlotRefs n r).status = s.status := by
  unfold SessionRow.setSlotRefs; split <;> rfl

theorem setSlotRefs_votingStartedAt (s : SessionRow) (n : Nat) (r : SlotRefs) :
    (s.setSlotRefs n r).votingStartedAt = s.votingStartedAt := by
  unfold SessionRow.setSlotRefs; split <;> rfl

theorem slotRefs_status_update (s : SessionRow) (st0 : Status) (n : Nat) :
    SessionRow.slotRefs { s with status := st0 } n = s.slotRefs n := by
  unfold SessionRow.slotRefs; rfl

/-!  ### Frame lemmas: what `_resolve_poll` / `_process_slot_result`
do not touch -/

theorem resolvePoll_frame (rand : List Nat → Nat) (tal : List Nat)
    (st : Store) (n : Nat) :
    (resolvePoll rand tal st n).1.movies = st.movies ∧
    (resolvePoll rand tal st n).1.ratings = st.ratings ∧
    (resolvePoll rand tal st n).1.session.id = st.session.id ∧
    (resolvePoll rand tal st n).1.session.status = st.session.status ∧
    (∀ v ∈ (resolvePoll rand tal st n).1.votes, v ∈ st.votes) := by
  unfold resolvePoll clearVotesForSlot
  dsimp only
  split
  · exact ⟨rfl, rfl, setSlotRefs_id _ _ _, setSlotRefs_status _ _ _,
      fun v hv => (List.mem_filter.mp hv).1⟩
  · split
    · exact ⟨rfl, rfl, setSlotRefs_id _ _ _, setSlotRefs_status _ _ _,
        fun v hv => hv⟩
    · exact ⟨rfl, rfl, rfl, rfl, fun v hv => hv⟩

theorem resolvePoll_slotRefs_other (rand : List Nat → Nat) (tal : List Nat)
    (st : Store) {n m : Nat} (hn : n = 1 ∨ n = 2) (hm : m = 1 ∨ m = 2)
    (hnm : n ≠ m) :
    (resolvePoll rand tal st n).1.session.slotRefs m = st.session.slotRefs m := by
  unfold resolvePoll clearVotesForSlot
  dsimp only
  split
  · exact slotRefs_setSlotRefs_other _ _ hn hm hnm
  · split
    · exact slotRefs_setSlotRefs_other _ _ hn hm hnm
    · rfl

theorem processSlot_frame (rand : List Nat → Nat) (tallies : Nat → List Nat)
    (st : Store) (n : Nat) :
    (processSlot rand tallies st n).1.movies = st.movies ∧
    (processSlot rand tallies st n).1.ratings = st.ratings ∧
    (processSlot rand tallies st n).1.session.id = st.session.id ∧
    (processSlot rand tallies st n).1.session.status = st.session.status ∧
    (∀ v ∈ (processSlot rand tallies st n).1.votes, v ∈ st.votes) := by
  unfold processSlot
  dsimp only
  split
  · exact ⟨rfl, rfl, rfl, rfl, fun v hv => hv⟩
  · split
    · exact resolvePoll_frame rand (tallies n) st n
    · split
      · split
        · exact ⟨rfl, rfl, rfl, rfl, fun v hv => hv⟩
        · split
          · exact ⟨rfl, rfl, rfl, rfl, fun v hv => hv⟩
          · exact ⟨rfl, rfl, rfl, rfl, fun v hv => hv⟩
      · split
        · exact ⟨rfl, rfl, rfl, rfl, fun v hv => hv⟩
        · exact ⟨rfl, rfl, rfl, rfl, fun v hv => hv⟩

theorem processSlot_slotRefs_other (rand : List Nat → Nat)
    (tallies : Nat → List Nat) (st : Store) {n m : Nat}
    (hn : n = 1 ∨ n = 2) (hm : m = 1 ∨ m = 2) (hnm : n ≠ m) :
    (processSlot rand tallies st n).1.session.slotRefs m =
      st.session.slotRefs m := by
  unfold processSlot
  dsimp only
  split
  · rfl
  · split
    · exact resolvePoll_slotRefs_other rand (tallies n) st hn hm hnm
    · split
      · split
        · rfl
        · split
          · rfl
          · rfl
      · split
        · rfl
        · rfl

theorem processSlot_empty (rand : List Nat → Nat) (tallies : Nat → List Nat)
    (st : Store) (n : Nat) (h : slotMovies st n = []) :
    processSlot rand tallies st n = (st, false) := by
  unfold processSlot
  rw [if_pos]
  rw [h]
  rfl

theorem slotMovies_congr (st st' : Store) (n : Nat)
    (hmov : st'.movies = st.movies) (hsid : st'.session.id = st.session.id) :
    slotMovies st' n = slotMovies st n := by
  unfold slotMovies
  rw [hmov, hsid]

theorem SlotWF_congr (st st' : Store) (tallies : Nat → List Nat) (n : Nat)
    (hrefs : st'.session.slotRefs n = st.session.slotRefs n)
    (hmov : st'.movies = st.movies) (hsid : st'.session.id = st.session.id)
    (h : SlotWF st tallies n) : SlotWF st' tallies n := by
  unfold SlotWF at h ⊢
  unfold slotMovieIdList sessionMovieIdList slotMovies sessionMovies at h ⊢
  rw [hrefs, hmov, hsid]
  exact h

/-- `determine_winner` on a non-empty count list either returns a single
decided winner with no tie, or the full maximal set flagged as a tie. -/
theorem determine_winner_cases (rand : List Nat → Nat)
    (vc : List (Nat × Nat)) (h : vc ≠ []) :
    (∃ w, determine_winner rand vc = (some [w], false)) ∨
    (determine_winner rand vc = (some (winnersOf vc), true) ∧
      1 < (winnersOf vc).length) := by
  unfold determine_winner
  rw [if_neg h]
  by_cases hm : maxVotes vc = 0
  · left
    exact ⟨rand (vc.map Prod.fst), by rw [if_pos hm]⟩
  · rw [if_neg hm]
    by_cases h1 : 1 < (winnersOf vc).length
    · right
      exact ⟨by simp [h1], h1⟩
    · left
      have hw := winnersOf_ne_nil vc h
      match hlw : winnersOf vc with
      | [] => exact absurd hlw hw
      | [w] => exact ⟨w, by simp⟩
      | w :: x :: rest =>
          exfalso
          apply h1
          rw [hlw]
          simp only [List.length_cons]
          omega

/-- The vote-count list of an open poll is non-empty. -/
theorem extractVoteCounts_ne_nil (ids : List Nat) (tal : List Nat)
    (hne : ids ≠ []) (hlen : tal.length = ids.length) :
    extractVoteCounts ids tal ≠ [] := by
  unfold extractVoteCounts
  intro hzip
  have hl := congrArg List.length hzip
  rw [List.length_zip, hlen, Nat.min_self] at hl
  exact hne (List.length_eq_zero.mp hl)

/-- Behaviour of `_resolve_poll` on a wellformed open poll: a reported tie
leaves no winner recorded; a reported non-tie leaves the slot resolved. -/
theorem resolvePoll_spec (rand : List Nat → Nat) (tal : List Nat)
    (st : Store) (n : Nat) (ids : List Nat)
    (hids : (st.session.slotRefs n).movieIds = some ids) (hne : ids ≠ [])
    (hlen : tal.length = ids.length)
    (hwin : (st.session.slotRefs n).winnerId = none) :
    ((resolvePoll rand tal st n).2 = true →
      ((resolvePoll rand tal st n).1.session.slotRefs n).winnerId = none) ∧
    ((resolvePoll rand tal st n).2 = false →
      slotResolvedRefs ((resolvePoll rand tal st n).1.session.slotRefs n)) := by
  have hcnt : extractVoteCounts ids tal ≠ [] :=
    extractVoteCounts_ne_nil ids tal hne hlen
  rcases determine_winner_cases rand (extractVoteCounts ids tal) hcnt with
    ⟨w, hdw⟩ | ⟨hdw, _⟩
  · have hval : resolvePoll rand tal st n =
        ({ st with session := st.session.setSlotRefs n ⟨none, none, none, some w⟩ },
          false) := by
      simp only [resolvePoll, hids, Option.getD_some, hdw]
      simp
    constructor
    · intro ht
      rw [hval] at ht
      simp at ht
    · intro _
      rw [hval]
      dsimp only
      rw [slotRefs_setSlotRefs_self]
      exact ⟨rfl, rfl⟩
  · have hflag : (resolvePoll rand tal st n).2 = true := by
      simp only [resolvePoll, hids, Option.getD_some, hdw]
      simp
    have hrefs : ((resolvePoll rand tal st n).1.session.slotRefs n).winnerId =
        (st.session.slotRefs n).winnerId := by
      simp only [resolvePoll, hids, Option.getD_some, hdw]
      simp only [if_true, eq_self_iff_true]
      rw [slotRefs_setSlotRefs_self]
    constructor
    · intro _
      rw [hrefs]
      exact hwin
    · intro hf
      rw [hflag] at hf
      simp at hf

/-- Behaviour of one slot during `finish_voting`, for a wellformed slot
that has candidates: a reported tie leaves the slot without a winner,
while no reported tie leaves the slot resolved. -/
theorem processSlot_spec (rand : List Nat → Nat) (tallies : Nat → List Nat)
    (st : Store) (n : Nat) (hwf : SlotWF st tallies n)
    (hne : slotMovies st n ≠ []) :
    ((processSlot rand tallies st n).2 = true →
      ((processSlot rand tallies st n).1.session.slotRefs n).winnerId = none) ∧
    ((processSlot rand tallies st n).2 = false →
      slotResolvedRefs ((processSlot rand tallies st n).1.session.slotRefs n)) := by
  have hemp : (slotMovies st n).isEmpty = false := by
    cases h : slotMovies st n with
    | nil => exact absurd h hne
    | cons a l => rfl
  by_cases hpoll : (st.session.slotRefs n).pollMessageId.isSome = true
  · obtain ⟨hmids, hids_ne, _, _, hlen, hwin⟩ := hwf.1 hpoll
    obtain ⟨ids, hids⟩ : ∃ ids, (st.session.slotRefs n).movieIds = some ids := by
      cases hmo : (st.session.slotRefs n).movieIds with
      | none => exact absurd hmo hmids
      | some ids => exact ⟨ids, rfl⟩
    rw [hids] at hids_ne hlen
    simp only [Option.getD_some] at hids_ne hlen
    have hps : processSlot rand tallies st n = resolvePoll rand (tallies n) st n := by
      simp only [processSlot, hemp, Bool.false_eq_true, if_false, hpoll, if_true]
    rw [hps]
    exact resolvePoll_spec rand (tallies n) st n ids hids hids_ne hlen hwin
  · have hpnone : (st.session.slotRefs n).pollMessageId = none := by
      cases h : (st.session.slotRefs n).pollMessageId with
      | none => rfl
      | some x => rw [h] at hpoll; exact absurd rfl hpoll
    cases hw : (st.session.slotRefs n).winnerId with
    | some w =>
        have hres := hwf.2.1 ⟨by rw [hw]; rfl, hpnone⟩
        rw [hw] at hres
        simp only [Option.getD_some] at hres
        have hcont : (sessionMovieIdList st).contains w = true := by
          exact List.elem_iff.mpr hres.1
        have hps : processSlot rand tallies st n = (st, false) := by
          simp only [processSlot, hemp, Bool.false_eq_true, if_false, hpoll,
            hw, hcont, if_true]
        rw [hps]
        refine ⟨fun ht => by simp at ht, fun _ => ?_⟩
        exact ⟨by rw [hw]; rfl, by rw [hres.2]; rfl⟩
    | none =>
        have hpend : (st.session.slotRefs n).movieIds.getD [] ≠ [] := by
          rcases hwf.2.2 hne with h | h | h
          · exact absurd h hpoll
          · rw [hw] at h; exact absurd h (by simp)
          · exact h
        have hpendB : ((st.session.slotRefs n).movieIds.getD []).isEmpty = false := by
          cases h : (st.session.slotRefs n).movieIds.getD [] with
          | nil => exact absurd h hpend
          | cons a l => rfl
        have hps : processSlot rand tallies st n = (st, true) := by
          simp only [processSlot, hemp, Bool.false_eq_true, if_false, hpoll,
            hw, hpendB, if_true]
        rw [hps]
        exact ⟨fun _ => hw, fun hf => by simp at hf⟩

/-- C3. Closing voting on a session in `voting` (with wellformed slot
state, as the normal flow establishes) advances the session to `rating`
if and only if every slot that has candidates ends up resolved (a decided
or auto-won winner and no pending tie); otherwise the session stays in
`voting` and the caller is told a revote is required (`has_any_tie`). -/
theorem finish_voting_advances_iff_resolved (rand : List Nat → Nat)
    (tallies : Nat → List Nat) (st : Store)
    (hst : st.session.status = Status.voting)
    (hwf1 : SlotWF st tallies 1) (hwf2 : SlotWF st tallies 2) :
    ((finish_voting rand tallies st).1.session.status = Status.rating ↔
      (∀ n, (n = 1 ∨ n = 2) → slotMovies st n ≠ [] →
        slotResolved (finish_voting rand tallies st).1 n)) ∧
    ((finish_voting rand tallies st).1.session.status ≠ Status.rating →
      (finish_voting rand tallies st).1.session.status = Status.voting ∧
      (finish_voting rand tallies st).2 = true) := by
  have hcond : (st.session.status ≠ Status.voting) = False := by
    simp [hst]
  have hfin : finish_voting rand tallies st =
      (if (processSlot rand tallies st 1).2 = true ∨
          (processSlot rand tallies
            (processSlot rand tallies st 1).1 2).2 = true then
        ((processSlot rand tallies (processSlot rand tallies st 1).1 2).1, true)
      else
        ({ (processSlot rand tallies (processSlot rand tallies st 1).1 2).1 with
            session := { (processSlot rand tallies
              (processSlot rand tallies st 1).1 2).1.session with
                status := Status.rating } }, false)) := by
    simp only [finish_voting, hcond, if_false, Bool.or_eq_true]
  obtain ⟨hm1, _, hid1, hstat1, _⟩ := processSlot_frame rand tallies st 1
  obtain ⟨hm2, _, hid2, hstat2, _⟩ :=
    processSlot_frame rand tallies (processSlot rand tallies st 1).1 2
  have hsm2 : slotMovies (processSlot rand tallies st 1).1 2 = slotMovies st 2 :=
    slotMovies_congr st (processSlot rand tallies st 1).1 2 hm1 hid1
  have hrefs12 : (processSlot rand tallies st 1).1.session.slotRefs 2 =
      st.session.slotRefs 2 :=
    processSlot_slotRefs_other rand tallies st (Or.inl rfl) (Or.inr rfl)
      (by decide)
  have hrefs21 : (processSlot rand tallies
      (processSlot rand tallies st 1).1 2).1.session.slotRefs 1 =
      (processSlot rand tallies st 1).1.session.slotRefs 1 :=
    processSlot_slotRefs_other rand tallies (processSlot rand tallies st 1).1
      (Or.inr rfl) (Or.inl rfl) (by decide)
  have hwf2' : SlotWF (processSlot rand tallies st 1).1 tallies 2 :=
    SlotWF_congr st (processSlot rand tallies st 1).1 tallies 2 hrefs12 hm1
      hid1 hwf2
  have hne_of_t1 : (processSlot rand tallies st 1).2 = true →
      slotMovies st 1 ≠ [] := by
    intro ht hempty
    rw [processSlot_empty rand tallies st 1 hempty] at ht
    simp at ht
  have hne_of_t2 : (processSlot rand tallies
      (processSlot rand tallies st 1).1 2).2 = true →
      slotMovies st 2 ≠ [] := by
    intro ht hempty
    rw [processSlot_empty rand tallies (processSlot rand tallies st 1).1 2
      (by rw [hsm2]; exact hempty)] at ht
    simp at ht
  by_cases hb1 : (processSlot rand tallies st 1).2 = true
  · -- slot 1 reported a tie: stay in voting, slot 1 unresolved
    have hfin1 : finish_voting rand tallies st =
        ((processSlot rand tallies (processSlot rand tallies st 1).1 2).1,
          true) := by
      rw [hfin, if_pos (Or.inl hb1)]
    have hstatus : (finish_voting rand tallies st).1.session.status =
        Status.voting := by
      rw [hfin1]
      dsimp only
      rw [hstat2, hstat1, hst]
    have hne1 := hne_of_t1 hb1
    have hunres : ¬ slotResolved (finish_voting rand tallies st).1 1 := by
      intro hres
      have hwin1 := (processSlot_spec rand tallies st 1 hwf1 hne1).1 hb1
      unfold slotResolved slotResolvedRefs at hres
      rw [hfin1] at hres
      dsimp only at hres
      rw [hrefs21, hwin1] at hres
      simp at hres
    constructor
    · rw [hstatus]
      constructor
      · intro h; exact absurd h (by simp)
      · intro hall
        exact absurd (hall 1 (Or.inl rfl) hne1) hunres
    · intro _
      exact ⟨hstatus, by rw [hfin1]⟩
  · by_cases hb2 : (processSlot rand tallies
        (processSlot rand tallies st 1).1 2).2 = true
    · -- slot 2 reported a tie: stay in voting, slot 2 unresolved
      have hfin1 : finish_voting rand tallies st =
          ((processSlot rand tallies (processSlot rand tallies st 1).1 2).1,
            true) := by
        rw [hfin, if_pos (Or.inr hb2)]
      have hstatus : (finish_voting rand tallies st).1.session.status =
          Status.voting := by
        rw [hfin1]
        dsimp only
        rw [hstat2, hstat1, hst]
      have hne2 := hne_of_t2 hb2
      have hne2' : slotMovies (processSlot rand tallies st 1).1 2 ≠ [] := by
        rw [hsm2]; exact hne2
      have hunres : ¬ slotResolved (finish_voting rand tallies st).1 2 := by
        intro hres
        have hwin2 := (processSlot_spec rand tallies
          (processSlot rand tallies st 1).1 2 hwf2' hne2').1 hb2
        unfold slotResolved slotResolvedRefs at hres
        rw [hfin1] at hres
        dsimp only at hres
        rw [hwin2] at hres
        simp at hres
      constructor
      · rw [hstatus]
        constructor
        · intro h; exact absurd h (by simp)
        · intro hall
          exact absurd (hall 2 (Or.inr rfl) hne2) hunres
      · intro _
        exact ⟨hstatus, by rw [hfin1]⟩
    · -- no slot reported a tie: advance to rating, all slots resolved
      have hfin1 : finish_voting rand tallies st =
          ({ (processSlot rand tallies (processSlot rand tallies st 1).1 2).1 with
              session := { (processSlot rand tallies
                (processSlot rand tallies st 1).1 2).1.session with
                  status := Status.rating } }, false) := by
        rw [hfin, if_neg]
        intro h
        rcases h with h | h
        · exact hb1 h
        · exact hb2 h
      have hstatus : (finish_voting rand tallies st).1.session.status =
          Status.rating := by
        rw [hfin1]
      constructor
      · rw [hstatus]
        constructor
        · intro _ n hn hne
          have hrefs_fin : (finish_voting rand tallies st).1.session.slotRefs n =
              (processSlot rand tallies
                (processSlot rand tallies st 1).1 2).1.session.slotRefs n := by
            rw [hfin1]
            dsimp only
            rw [slotRefs_status_update]
          unfold slotResolved
          rw [hrefs_fin]
          rcases hn with h1 | h2
          · subst h1
            have hres := (processSlot_spec rand tallies st 1 hwf1 hne).2
              (by simpa using hb1)
            rw [hrefs21]
            exact hres
          · subst h2
            have hne2' : slotMovies (processSlot rand tallies st 1).1 2 ≠ [] := by
              rw [hsm2]; exact hne
            exact (processSlot_spec rand tallies
              (processSlot rand tallies st 1).1 2 hwf2' hne2').2
              (by simpa using hb2)
        · intro _; rfl
      · intro hcon
        exact absurd hstatus hcon

/-!  ### The tie branch of `_resolve_poll` (claim C4) -/

theorem slotMovieIdList_subset (st : Store) (n : Nat) :
    ∀ i ∈ slotMovieIdList st n, i ∈ sessionMovieIdList st := by
  intro i hi
  unfold slotMovieIdList slotMovies at hi
  unfold sessionMovieIdList sessionMovies
  rcases List.mem_map.mp hi with ⟨m, hm, hmi⟩
  rcases List.mem_filter.mp hm with ⟨hmem, hcond⟩
  rw [Bool.and_eq_true] at hcond
  exact hmi ▸ List.mem_map_of_mem _ (List.mem_filter.mpr ⟨hmem, hcond.1⟩)

theorem winnersOf_subset_keys (vc : List (Nat × Nat)) :
    ∀ i ∈ winnersOf vc, i ∈ vc.map Prod.fst := by
  intro i hi
  unfold winnersOf at hi
  rcases List.mem_map.mp hi with ⟨p, hp, hpi⟩
  exact hpi ▸ List.mem_map_of_mem _ (List.mem_of_mem_filter hp)

/-- If the tie flag came back `true`, `determine_winner` returned the full
maximal candidate set. -/
theorem determine_winner_tie_eq (rand : List Nat → Nat)
    (vc : List (Nat × Nat)) (h : (determine_winner rand vc).2 = true) :
    determine_winner rand vc = (some (winnersOf vc), true) := by
  unfold determine_winner at h ⊢
  by_cases h0 : vc = []
  · rw [if_pos h0] at h; simp at h
  · rw [if_neg h0] at h ⊢
    by_cases hm : maxVotes vc = 0
    · rw [if_pos hm] at h; simp at h
    · rw [if_neg hm] at h ⊢
      simp only [decide_eq_true_eq] at h
      simp [h]

/-- Explicit form of `_resolve_poll` in the tie branch. -/
theorem resolvePoll_tie_eq (rand : List Nat → Nat) (tal : List Nat)
    (st : Store) (n : Nat) (ids : List Nat)
    (hids : (st.session.slotRefs n).movieIds = some ids)
    (htie : (determine_winner rand (extractVoteCounts ids tal)).2 = true) :
    resolvePoll rand tal st n =
      ({ st with
          votes := st.votes.filter (fun v =>
            !(v.sessionId == st.session.id &&
              (slotMovieIdList st n).contains v.movieId)),
          session := st.session.setSlotRefs n
            { st.session.slotRefs n with
                pollMessageId := none, pollId := none,
                movieIds := some
                  ((winnersOf (extractVoteCounts ids tal)).filter
                    (fun mid => (sessionMovieIdList st).contains mid)) } },
        true) := by
  have hdw := determine_winner_tie_eq rand _ htie
  simp only [resolvePoll, clearVotesForSlot, hids, Option.getD_some, hdw]
  simp

/-- Effects of `_resolve_poll` on a tie, as claim C4 states them: votes for
the slot's candidates are all gone, the pending set is exactly the tied
ids, the poll handles are cleared, and no winner is committed. -/
theorem resolvePoll_tie_spec (rand : List Nat → Nat) (tal : List Nat)
    (st : Store) (n : Nat) (ids : List Nat)
    (hids : (st.session.slotRefs n).movieIds = some ids)
    (hlen : tal.length = ids.length)
    (hidsub : ∀ i ∈ ids, i ∈ slotMovieIdList st n)
    (hwin : (st.session.slotRefs n).winnerId = none)
    (htie : (determine_winner rand (extractVoteCounts ids tal)).2 = true) :
    (∀ v ∈ (resolvePoll rand tal st n).1.votes,
      ¬(v.sessionId = st.session.id ∧ v.movieId ∈ slotMovieIdList st n)) ∧
    ((resolvePoll rand tal st n).1.session.slotRefs n).movieIds =
      some (winnersOf (extractVoteCounts ids tal)) ∧
    ((resolvePoll rand tal st n).1.session.slotRefs n).pollMessageId = none ∧
    ((resolvePoll rand tal st n).1.session.slotRefs n).pollId = none ∧
    ((resolvePoll rand tal st n).1.session.slotRefs n).winnerId = none ∧
    (resolvePoll rand tal st n).2 = true := by
  have hkeys : (extractVoteCounts ids tal).map Prod.fst = ids := by
    unfold extractVoteCounts
    exact List.map_fst_zip ids tal (le_of_eq hlen.symm)
  have hwsub : ∀ i ∈ winnersOf (extractVoteCounts ids tal),
      i ∈ sessionMovieIdList st := by
    intro i hi
    have h1 := winnersOf_subset_keys _ i hi
    rw [hkeys] at h1
    exact slotMovieIdList_subset st n i (hidsub i h1)
  have hfil : (winnersOf (extractVoteCounts ids tal)).filter
      (fun mid => (sessionMovieIdList st).contains mid) =
      winnersOf (extractVoteCounts ids tal) := by
    apply List.filter_eq_self.mpr
    intro a ha
    exact List.elem_iff.mpr (hwsub a ha)
  rw [resolvePoll_tie_eq rand tal st n ids hids htie]
  dsimp only
  rw [slotRefs_setSlotRefs_self]
  refine ⟨?_, by rw [hfil], rfl, rfl, hwin, rfl⟩
  intro v hv ⟨hs, hm⟩
  have hkeep := List.of_mem_filter hv
  rw [Bool.not_eq_true', Bool.and_eq_false_iff] at hkeep
  rcases hkeep with h | h
  · rw [beq_eq_false_iff_ne] at h
    exact h hs
  · rw [← Bool.not_eq_true] at h
    exact h (List.elem_iff.mpr hm)

theorem slotMovieIdList_congr (st st' : Store) (n : Nat)
    (hmov : st'.movies = st.movies) (hsid : st'.session.id = st.session.id) :
    slotMovieIdList st' n = slotMovieIdList st n := by
  unfold slotMovieIdList
  rw [slotMovies_congr st st' n hmov hsid]

theorem sessionMovieIdList_congr (st st' : Store)
    (hmov : st'.movies = st.movies) (hsid : st'.session.id = st.session.id) :
    sessionMovieIdList st' = sessionMovieIdList st := by
  unfold sessionMovieIdList sessionMovies
  rw [hmov, hsid]

theorem slotMovies_ne_nil_of_poll (st : Store) (tallies : Nat → List Nat)
    (n : Nat) (hwf : SlotWF st tallies n)
    (hpoll : (st.session.slotRefs n).pollMessageId.isSome = true) :
    slotMovies st n ≠ [] := by
  obtain ⟨_, hids_ne, _, hsub, _, _⟩ := hwf.1 hpoll
  intro hc
  obtain ⟨i, hi⟩ := List.exists_mem_of_ne_nil _ hids_ne
  have hmem := hsub i hi
  unfold slotMovieIdList at hmem
  rw [hc] at hmem
  simp at hmem

theorem processSlot_poll_eq (rand : List Nat → Nat) (tallies : Nat → List Nat)
    (st : Store) (n : Nat) (hne : slotMovies st n ≠ [])
    (hpoll : (st.session.slotRefs n).pollMessageId.isSome = true) :
    processSlot rand tallies st n = resolvePoll rand (tallies n) st n := by
  have hemp : (slotMovies st n).isEmpty = false := by
    cases h : slotMovies st n with
    | nil => exact absurd h hne
    | cons a l => rfl
  simp only [processSlot, hemp, Bool.false_eq_true, if_false, hpoll, if_true]

/-- C4. When closing voting resolves slot `n`'s poll as a tie: every vote
for that slot's candidates is deleted, the persisted pending set is
exactly the tied ids, the poll message id and external poll id are
cleared, no winner is committed for the slot, and the session stays in
`voting` with the revote prompt raised. -/
theorem finish_voting_tie_effects (rand : List Nat → Nat)
    (tallies : Nat → List Nat) (st : Store) (n : Nat) (hn : n = 1 ∨ n = 2)
    (hst : st.session.status = Status.voting)
    (hwf1 : SlotWF st tallies 1) (hwf2 : SlotWF st tallies 2)
    (hpoll : (st.session.slotRefs n).pollMessageId.isSome = true)
    (htie : (determine_winner rand (extractVoteCounts
      ((st.session.slotRefs n).movieIds.getD []) (tallies n))).2 = true) :
    (∀ v ∈ (finish_voting rand tallies st).1.votes,
      ¬(v.sessionId = st.session.id ∧ v.movieId ∈ slotMovieIdList st n)) ∧
    ((finish_voting rand tallies st).1.session.slotRefs n).movieIds =
      some (winnersOf (extractVoteCounts
        ((st.session.slotRefs n).movieIds.getD []) (tallies n))) ∧
    ((finish_voting rand tallies st).1.session.slotRefs n).pollMessageId =
      none ∧
    ((finish_voting rand tallies st).1.session.slotRefs n).pollId = none ∧
    ((finish_voting rand tallies st).1.session.slotRefs n).winnerId = none ∧
    (finish_voting rand tallies st).1.session.status = Status.voting ∧
    (finish_voting rand tallies st).2 = true := by
  have hcond : (st.session.status ≠ Status.voting) = False := by
    simp [hst]
  rcases hn with rfl | rfl
  · -- the tied slot is slot 1
    obtain ⟨hmids, hids_ne0, _, hsub0, hlen0, hwin⟩ := hwf1.1 hpoll
    obtain ⟨ids, hids⟩ : ∃ ids, (st.session.slotRefs 1).movieIds = some ids := by
      cases hmo : (st.session.slotRefs 1).movieIds with
      | none => exact absurd hmo hmids
      | some ids => exact ⟨ids, rfl⟩
    rw [hids] at hids_ne0 hlen0 hsub0 htie ⊢
    simp only [Option.getD_some] at hids_ne0 hlen0 hsub0 htie ⊢
    have hne1 : slotMovies st 1 ≠ [] :=
      slotMovies_ne_nil_of_poll st tallies 1 hwf1 hpoll
    have hps1 := processSlot_poll_eq rand tallies st 1 hne1 hpoll
    have hspec := resolvePoll_tie_spec rand (tallies 1) st 1 ids hids hlen0
      hsub0 hwin htie
    have hb1 : (processSlot rand tallies st 1).2 = true := by
      rw [hps1]; exact hspec.2.2.2.2.2
    have hfin : finish_voting rand tallies st =
        ((processSlot rand tallies
          (processSlot rand tallies st 1).1 2).1, true) := by
      simp only [finish_voting, hcond, if_false, hb1, Bool.true_or, if_true]
    obtain ⟨hm2, _, hid2, hstat2, hvot2⟩ :=
      processSlot_frame rand tallies (processSlot rand tallies st 1).1 2
    obtain ⟨hm1, _, hid1, hstat1, _⟩ := processSlot_frame rand tallies st 1
    have hrefs21 : (processSlot rand tallies
        (processSlot rand tallies st 1).1 2).1.session.slotRefs 1 =
        (processSlot rand tallies st 1).1.session.slotRefs 1 :=
      processSlot_slotRefs_other rand tallies (processSlot rand tallies st 1).1
        (Or.inr rfl) (Or.inl rfl) (by decide)
    rw [← hps1] at hspec
    rw [hfin]
    dsimp only
    rw [hrefs21]
    refine ⟨?_, hspec.2.1, hspec.2.2.1, hspec.2.2.2.1, hspec.2.2.2.2.1,
      ?_, rfl⟩
    · intro v hv
      exact hspec.1 v (hvot2 v hv)
    · rw [hstat2, hstat1, hst]
  · -- the tied slot is slot 2; slot 1 is processed first
    obtain ⟨hm1, _, hid1, hstat1, _⟩ := processSlot_frame rand tallies st 1
    have hrefs12 : (processSlot rand tallies st 1).1.session.slotRefs 2 =
        st.session.slotRefs 2 :=
      processSlot_slotRefs_other rand tallies st (Or.inl rfl) (Or.inr rfl)
        (by decide)
    have hwf2' : SlotWF (processSlot rand tallies st 1).1 tallies 2 :=
      SlotWF_congr st (processSlot rand tallies st 1).1 tallies 2 hrefs12 hm1
        hid1 hwf2
    have hpoll' : ((processSlot rand tallies st 1).1.session.slotRefs
        2).pollMessageId.isSome = true := by
      rw [hrefs12]; exact hpoll
    obtain ⟨hmids, hids_ne0, _, hsub0, hlen0, hwin⟩ := hwf2.1 hpoll
    obtain ⟨ids, hids⟩ : ∃ ids, (st.session.slotRefs 2).movieIds = some ids := by
      cases hmo : (st.session.slotRefs 2).movieIds with
      | none => exact absurd hmo hmids
      | some ids => exact ⟨ids, rfl⟩
    rw [hids] at hids_ne0 hlen0 hsub0 htie ⊢
    simp only [Option.getD_some] at hids_ne0 hlen0 hsub0 htie ⊢
    have hids' : ((processSlot rand tallies st 1).1.session.slotRefs
        2).movieIds = some ids := by
      rw [hrefs12]; exact hids
    have hwin' : ((processSlot rand tallies st 1).1.session.slotRefs
        2).winnerId = none := by
      rw [hrefs12]; exact hwin
    have hsml : slotMovieIdList (processSlot rand tallies st 1).1 2 =
        slotMovieIdList st 2 :=
      slotMovieIdList_congr st (processSlot rand tallies st 1).1 2 hm1 hid1
    have hsub' : ∀ i ∈ ids,
        i ∈ slotMovieIdList (processSlot rand tallies st 1).1 2 := by
      intro i hi
      rw [hsml]
      exact hsub0 i hi
    have hne2 : slotMovies (processSlot rand tallies st 1).1 2 ≠ [] :=
      slotMovies_ne_nil_of_poll (processSlot rand tallies st 1).1 tallies 2
        hwf2' hpoll'
    have hps2 := processSlot_poll_eq rand tallies
      (processSlot rand tallies st 1).1 2 hne2 hpoll'
    have hspec := resolvePoll_tie_spec rand (tallies 2)
      (processSlot rand tallies st 1).1 2 ids hids' hlen0 hsub' hwin' htie
    have hb2 : (processSlot rand tallies
        (processSlot rand tallies st 1).1 2).2 = true := by
      rw [hps2]; exact hspec.2.2.2.2.2
    have hfin : finish_voting rand tallies st =
        ((processSlot rand tallies
          (processSlot rand tallies st 1).1 2).1, true) := by
      simp only [finish_voting, hcond, if_false, hb2, Bool.or_true, if_true]
    obtain ⟨_, _, _, hstat2r, _⟩ := resolvePoll_frame rand (tallies 2)
      (processSlot rand tallies st 1).1 2
    rw [hfin]
    dsimp only
    rw [hps2]
    refine ⟨?_, hspec.2.1, hspec.2.2.1, hspec.2.2.2.1, hspec.2.2.2.2.1,
      ?_, rfl⟩
    · intro v hv
      have hnot := hspec.1 v hv
      intro hcontr
      apply hnot
      constructor
      · rw [hid1]; exact hcontr.1
      · rw [hsml]; exact hcontr.2
    · rw [hstat2r, hstat1, hst]

/-- C5 counterexample: on a collecting session with zero candidates no slot
requires a poll, yet `start_voting` refuses (`total_movies < 1`) and the
session stays in `collecting` instead of jumping to `rating` as the claim
states. -/
theorem start_voting_zero_candidates_counterexample :
    stC5empty.session.status = Status.collecting ∧
    slotMovies stC5empty 1 = [] ∧ slotMovies stC5empty 2 = [] ∧
    start_voting (fun n => (n, n)) 0 stC5empty =
      (stC5empty, StartResult.noMovies) ∧
    (start_voting (fun n => (n, n)) 0 stC5empty).1.session.status ≠
      Status.rating := by
  refine ⟨rfl, rfl, rfl, rfl, ?_⟩
  decide

/-- C5 (amended with "at least one candidate was proposed").  Advancing a
clean collecting session: a slot with no candidates keeps empty slot
columns; a slot with exactly one candidate gets that candidate as winner
and no poll; a slot with two or more candidates gets the poll handle,
external poll id and ordered candidate-id list stored; if neither slot
needed a poll the status jumps straight to `rating` (without a
voting-start timestamp), otherwise it becomes `voting` and the
voting-start timestamp is recorded; no other table is touched. -/
theorem start_voting_spec (newPoll : Nat → Nat × Nat) (now : Nat) (st : Store)
    (hcol : st.session.status = Status.collecting)
    (hclean1 : st.session.slot1 = emptySlotRefs)
    (hclean2 : st.session.slot2 = emptySlotRefs)
    (htot : slotMovies st 1 ≠ [] ∨ slotMovies st 2 ≠ []) :
    ((slotMovies st 1 = [] →
        (start_voting newPoll now st).1.session.slotRefs 1 = emptySlotRefs) ∧
      (∀ m, slotMovies st 1 = [m] →
        (start_voting newPoll now st).1.session.slotRefs 1 =
          ⟨none, none, none, some m.id⟩) ∧
      (2 ≤ (slotMovies st 1).length →
        (start_voting newPoll now st).1.session.slotRefs 1 =
          ⟨some (newPoll 1).1, some (newPoll 1).2,
            some ((slotMovies st 1).map (fun m => m.id)), none⟩)) ∧
    ((slotMovies st 2 = [] →
        (start_voting newPoll now st).1.session.slotRefs 2 = emptySlotRefs) ∧
      (∀ m, slotMovies st 2 = [m] →
        (start_voting newPoll now st).1.session.slotRefs 2 =
          ⟨none, none, none, some m.id⟩) ∧
      (2 ≤ (slotMovies st 2).length →
        (start_voting newPoll now st).1.session.slotRefs 2 =
          ⟨some (newPoll 2).1, some (newPoll 2).2,
            some ((slotMovies st 2).map (fun m => m.id)), none⟩)) ∧
    ((slotMovies st 1).length ≤ 1 ∧ (slotMovies st 2).length ≤ 1 →
      (start_voting newPoll now st).1.session.status = Status.rating ∧
      (start_voting newPoll now st).1.session.votingStartedAt =
        st.session.votingStartedAt ∧
      (start_voting newPoll now st).2 = StartResult.autoResolved) ∧
    (2 ≤ (slotMovies st 1).length ∨ 2 ≤ (slotMovies st 2).length →
      (start_voting newPoll now st).1.session.status = Status.voting ∧
      (start_voting newPoll now st).1.session.votingStartedAt = some now ∧
      (start_voting newPoll now st).2 = StartResult.votingStarted) ∧
    (start_voting newPoll now st).1.movies = st.movies ∧
    (start_voting newPoll now st).1.votes = st.votes ∧
    (start_voting newPoll now st).1.ratings = st.ratings := by
  obtain ⟨⟨sid, sstatus, sl1, sl2, vst, cat⟩, movies, votes, ratings⟩ := st
  dsimp only at hcol hclean1 hclean2
  subst hcol hclean1 hclean2
  rcases hs1 : slotMovies
      ⟨⟨sid, Status.collecting, emptySlotRefs, emptySlotRefs, vst, cat⟩,
        movies, votes, ratings⟩ 1 with _ | ⟨a1, t1⟩ <;>
    rcases hs2 : slotMovies
      ⟨⟨sid, Status.collecting, emptySlotRefs, emptySlotRefs, vst, cat⟩,
        movies, votes, ratings⟩ 2 with _ | ⟨a2, t2⟩
  · rcases htot with h | h
    · exact absurd hs1 h
    · exact absurd hs2 h
  · rcases ht2 : t2 with _ | ⟨b2, t2'⟩ <;> subst ht2 <;>
      simp [start_voting, classifySlot, setSlotPoll, SessionRow.setSlotRefs,
        SessionRow.slotRefs, hs1, hs2] <;>
      simp [emptySlotRefs]
  · rcases ht1 : t1 with _ | ⟨b1, t1'⟩ <;> subst ht1 <;>
      simp [start_voting, classifySlot, setSlotPoll, SessionRow.setSlotRefs,
        SessionRow.slotRefs, hs1, hs2] <;>
      simp [emptySlotRefs]
  · rcases ht1 : t1 with _ | ⟨b1, t1'⟩ <;>
      rcases ht2 : t2 with _ | ⟨b2, t2'⟩ <;> subst ht1 <;> subst ht2 <;>
      simp [start_voting, classifySlot, setSlotPoll, SessionRow.setSlotRefs,
        SessionRow.slotRefs, hs1, hs2] <;>
      simp [emptySlotRefs]

/-- Closed witness for `start_voting_spec`: the spec's auto-win scenario
(one candidate in slot 1, none in slot 2). -/
theorem start_voting_spec_witness :
    (stC5auto.session.status = Status.collecting ∧
      stC5auto.session.slot1 = emptySlotRefs ∧
      stC5auto.session.slot2 = emptySlotRefs ∧
      (slotMovies stC5auto 1 ≠ [] ∨ slotMovies stC5auto 2 ≠ [])) ∧
    (((slotMovies stC5auto 1 = [] →
        (start_voting (fun n => (10 * n, 11 * n)) 7
          stC5auto).1.session.slotRefs 1 = emptySlotRefs) ∧
      (∀ m, slotMovies stC5auto 1 = [m] →
        (start_voting (fun n => (10 * n, 11 * n)) 7
          stC5auto).1.session.slotRefs 1 = ⟨none, none, none, some m.id⟩) ∧
      (2 ≤ (slotMovies stC5auto 1).length →
        (start_voting (fun n => (10 * n, 11 * n)) 7
          stC5auto).1.session.slotRefs 1 =
          ⟨some ((fun n => (10 * n, 11 * n)) 1).1,
            some ((fun n => (10 * n, 11 * n)) 1).2,
            some ((slotMovies stC5auto 1).map (fun m => m.id)), none⟩)) ∧
    ((slotMovies stC5auto 2 = [] →
        (start_voting (fun n => (10 * n, 11 * n)) 7
          stC5auto).1.session.slotRefs 2 = emptySlotRefs) ∧
      (∀ m, slotMovies stC5auto 2 = [m] →
        (start_voting (fun n => (10 * n, 11 * n)) 7
          stC5auto).1.session.slotRefs 2 = ⟨none, none, none, some m.id⟩) ∧
      (2 ≤ (slotMovies stC5auto 2).length →
        (start_voting (fun n => (10 * n, 11 * n)) 7
          stC5auto).1.session.slotRefs 2 =
          ⟨some ((fun n => (10 * n, 11 * n)) 2).1,
            some ((fun n => (10 * n, 11 * n)) 2).2,
            some ((slotMovies stC5auto 2).map (fun m => m.id)), none⟩)) ∧
    ((slotMovies stC5auto 1).length ≤ 1 ∧ (slotMovies stC5auto 2).length ≤ 1 →
      (start_voting (fun n => (10 * n, 11 * n)) 7
        stC5auto).1.session.status = Status.rating ∧
      (start_voting (fun n => (10 * n, 11 * n)) 7
        stC5auto).1.session.votingStartedAt =
        stC5auto.session.votingStartedAt ∧
      (start_voting (fun n => (10 * n, 11 * n)) 7 stC5auto).2 =
        StartResult.autoResolved) ∧
    (2 ≤ (slotMovies stC5auto 1).length ∨ 2 ≤ (slotMovies stC5auto 2).length →
      (start_voting (fun n => (10 * n, 11 * n)) 7
        stC5auto).1.session.status = Status.voting ∧
      (start_voting (fun n => (10 * n, 11 * n)) 7
        stC5auto).1.session.votingStartedAt = some 7 ∧
      (start_voting (fun n => (10 * n, 11 * n)) 7 stC5auto).2 =
        StartResult.votingStarted) ∧
    (start_voting (fun n => (10 * n, 11 * n)) 7 stC5auto).1.movies =
      stC5auto.movies ∧
    (start_voting (fun n => (10 * n, 11 * n)) 7 stC5auto).1.votes =
      stC5auto.votes ∧
    (start_voting (fun n => (10 * n, 11 * n)) 7 stC5auto).1.ratings =
      stC5auto.ratings) :=
  ⟨⟨rfl, rfl, rfl, Or.inl (by decide)⟩,
    start_voting_spec (fun n => (10 * n, 11 * n)) 7 stC5auto rfl rfl rfl
      (Or.inl (by decide))⟩

/-- Closed witness for `finish_voting_advances_iff_resolved` at a concrete
voting session with a decisive 5-3 poll on slot 1. -/
theorem finish_voting_advances_iff_resolved_witness :
    (stVote.session.status = Status.voting ∧
      SlotWF stVote talWin 1 ∧ SlotWF stVote talWin 2) ∧
    (((finish_voting (fun _ => 0) talWin stVote).1.session.status =
        Status.rating ↔
      (∀ n, (n = 1 ∨ n = 2) → slotMovies stVote n ≠ [] →
        slotResolved (finish_voting (fun _ => 0) talWin stVote).1 n)) ∧
    ((finish_voting (fun _ => 0) talWin stVote).1.session.status ≠
        Status.rating →
      (finish_voting (fun _ => 0) talWin stVote).1.session.status =
        Status.voting ∧
      (finish_voting (fun _ => 0) talWin stVote).2 = true)) :=
  ⟨⟨rfl, by decide, by decide⟩,
    finish_voting_advances_iff_resolved (fun _ => 0) talWin stVote rfl
      (by decide) (by decide)⟩

/-- Closed witness for `finish_voting_tie_effects` at the spec's 3-3 tie
scenario on slot 1. -/
theorem finish_voting_tie_effects_witness :
    ((1 = 1 ∨ 1 = 2) ∧ stVote.session.status = Status.voting ∧
      SlotWF stVote talTie 1 ∧ SlotWF stVote talTie 2 ∧
      (stVote.session.slotRefs 1).pollMessageId.isSome = true ∧
      (determine_winner (fun _ => 0) (extractVoteCounts
        ((stVote.session.slotRefs 1).movieIds.getD []) (talTie 1))).2 =
        true) ∧
    ((∀ v ∈ (finish_voting (fun _ => 0) talTie stVote).1.votes,
        ¬(v.sessionId = stVote.session.id ∧
          v.movieId ∈ slotMovieIdList stVote 1)) ∧
      ((finish_voting (fun _ => 0) talTie stVote).1.session.slotRefs
          1).movieIds =
        some (winnersOf (extractVoteCounts
          ((stVote.session.slotRefs 1).movieIds.getD []) (talTie 1))) ∧
      ((finish_voting (fun _ => 0) talTie stVote).1.session.slotRefs
          1).pollMessageId = none ∧
      ((finish_voting (fun _ => 0) talTie stVote).1.session.slotRefs
          1).pollId = none ∧
      ((finish_voting (fun _ => 0) talTie stVote).1.session.slotRefs
          1).winnerId = none ∧
      (finish_voting (fun _ => 0) talTie stVote).1.session.status =
        Status.voting ∧
      (finish_voting (fun _ => 0) talTie stVote).2 = true) :=
  ⟨⟨Or.inl rfl, rfl, by decide, by decide, by decide, by decide⟩,
    finish_voting_tie_effects (fun _ => 0) talTie stVote 1 (Or.inl rfl) rfl
      (by decide) (by decide) (by decide) (by decide)⟩

/-- C6 is violated by the code: `admin_set_winner_cmd` accepts any movie id
without checking its session or slot, so `/set_winner_7` with remembered
slot 1 makes `winner_slot1_id` point at a movie of another session and
another slot, breaking the invariant the spec requires every writer to
preserve. -/
theorem admin_set_winner_violates_invariant :
    WinnerInvariant stC6 ∧
    ¬ WinnerInvariant (admin_set_winner_cmd stC6 (some 1) 7) := by
  constructor
  · exact ⟨rfl, rfl⟩
  · intro h
    have h1 := h.1
    revert h1
    decide

/-- C7. A proposal whose catalog id already exists in the session (any
slot, any proposer) is rejected with a duplicate signal naming the
existing row's proposer; the store is untouched, so in particular exactly
one candidate with that catalog id remains when exactly one existed. -/
theorem propose_duplicate_rejected (newId : Nat) (st : Store)
    (userId slot : Nat) (kid : String) (m0 : MovieRow)
    (hcol : st.session.status = Status.collecting)
    (hdup : check_duplicate st kid = some m0) :
    propose newId st userId slot kid = (st, ProposeResult.duplicate m0.userId) ∧
    ((st.movies.filter (fun m =>
        m.sessionId == st.session.id && m.kinopoiskId == kid)).length = 1 →
      ((propose newId st userId slot kid).1.movies.filter (fun m =>
        m.sessionId == st.session.id && m.kinopoiskId == kid)).length = 1) := by
  have hcond : (st.session.status ≠ Status.collecting) = False := by
    simp [hcol]
  have heq : propose newId st userId slot kid =
      (st, ProposeResult.duplicate m0.userId) := by
    simp only [propose, hcond, if_false, hdup]
  exact ⟨heq, fun h => by rw [heq]; exact h⟩

/-- Closed witness for `propose_duplicate_rejected`: user 200 proposes
"kp42" again (even to the other slot) and is rejected naming user 100. -/
theorem propose_duplicate_rejected_witness :
    (stC7.session.status = Status.collecting ∧
      check_duplicate stC7 "kp42" = some ⟨3, 1, 100, 1, "kp42", none⟩) ∧
    (propose 9 stC7 200 2 "kp42" =
      (stC7, ProposeResult.duplicate
        (MovieRow.userId ⟨3, 1, 100, 1, "kp42", none⟩)) ∧
    ((stC7.movies.filter (fun m =>
        m.sessionId == stC7.session.id && m.kinopoiskId == "kp42")).length =
          1 →
      ((propose 9 stC7 200 2 "kp42").1.movies.filter (fun m =>
        m.sessionId == stC7.session.id && m.kinopoiskId == "kp42")).length =
          1)) :=
  ⟨⟨rfl, by decide⟩,
    propose_duplicate_rejected 9 stC7 200 2 "kp42"
      ⟨3, 1, 100, 1, "kp42", none⟩ rfl (by decide)⟩

theorem clearWinnerRefs_spec (s : SessionRow) (mid : Nat) :
    sessionAfterDelete s.id mid s (clearWinnerRefs s mid) := by
  unfold clearWinnerRefs sessionAfterDelete
  by_cases h1 : s.slot1.winnerId = some mid <;>
    by_cases h2 : s.slot2.winnerId = some mid <;>
      simp [h1, h2]

/-- C8. Deleting a candidate by id removes exactly the votes and ratings
that reference it, removes exactly that candidate, nulls whichever of the
parent session's winner references pointed at it while leaving every
other session column and every other session untouched, and returns
`true` exactly when the candidate existed (with no change on `false`). -/
theorem delete_movie_spec (db : DB) (mid : Nat) :
    ((delete_movie_by_id db mid).2 = true ↔ ∃ m ∈ db.movies, m.id = mid) ∧
    (db.movies.find? (fun m => m.id == mid) = none →
      delete_movie_by_id db mid = (db, false)) ∧
    (∀ m0, db.movies.find? (fun m => m.id == mid) = some m0 →
      (∀ v, v ∈ (delete_movie_by_id db mid).1.votes ↔
        v ∈ db.votes ∧ v.movieId ≠ mid) ∧
      (∀ r, r ∈ (delete_movie_by_id db mid).1.ratings ↔
        r ∈ db.ratings ∧ r.movieId ≠ mid) ∧
      (∀ m, m ∈ (delete_movie_by_id db mid).1.movies ↔
        m ∈ db.movies ∧ m.id ≠ mid) ∧
      List.Forall₂ (sessionAfterDelete m0.sessionId mid) db.sessions
        (delete_movie_by_id db mid).1.sessions) := by
  refine ⟨?_, ?_, ?_⟩
  · constructor
    · intro ht
      cases hf : db.movies.find? (fun m => m.id == mid) with
      | none =>
          unfold delete_movie_by_id at ht
          rw [hf] at ht
          simp at ht
      | some m0 =>
          have hm := List.find?_some hf
          have hmem := List.mem_of_find?_eq_some hf
          exact ⟨m0, hmem, by simpa using hm⟩
    · intro ⟨m, hm, hid⟩
      cases hf : db.movies.find? (fun m => m.id == mid) with
      | none =>
          have := List.find?_eq_none.mp hf m hm
          simp [hid] at this
      | some m0 =>
          unfold delete_movie_by_id
          rw [hf]
  · intro hf
    unfold delete_movie_by_id
    rw [hf]
  · intro m0 hf
    have hdel : delete_movie_by_id db mid =
        (⟨db.sessions.map (fun s =>
            if s.id == m0.sessionId then clearWinnerRefs s mid else s),
          db.movies.filter (fun m => m.id != mid),
          db.votes.filter (fun v => v.movieId != mid),
          db.ratings.filter (fun r => r.movieId != mid)⟩, true) := by
      unfold delete_movie_by_id
      rw [hf]
    rw [hdel]
    refine ⟨?_, ?_, ?_, ?_⟩
    · intro v
      simp [List.mem_filter]
    · intro r
      simp [List.mem_filter]
    · intro m
      simp [List.mem_filter]
    · dsimp only
      rw [List.forall₂_map_right_iff]
      apply List.forall₂_same.mpr
      intro s _
      by_cases hs : s.id == m0.sessionId
      · rw [if_pos hs]
        have hid : s.id = m0.sessionId := by simpa using hs
        rw [← hid]
        exact clearWinnerRefs_spec s mid
      · rw [if_neg hs]
        have hid : ¬(s.id = m0.sessionId) := by simpa using hs
        unfold sessionAfterDelete
        simp [hid]

/-- Closed witness for `delete_movie_spec`: deleting session 1's slot-2
winner (movie 7). -/
theorem delete_movie_spec_witness :
    (dbC8.movies.find? (fun m => m.id == 7) =
      some ⟨7, 1, 101, 2, "b", none⟩) ∧
    ((∀ v, v ∈ (delete_movie_by_id dbC8 7).1.votes ↔
        v ∈ dbC8.votes ∧ v.movieId ≠ 7) ∧
      (∀ r, r ∈ (delete_movie_by_id dbC8 7).1.ratings ↔
        r ∈ dbC8.ratings ∧ r.movieId ≠ 7) ∧
      (∀ m, m ∈ (delete_movie_by_id dbC8 7).1.movies ↔
        m ∈ dbC8.movies ∧ m.id ≠ 7) ∧
      List.Forall₂
        (sessionAfterDelete (MovieRow.sessionId ⟨7, 1, 101, 2, "b", none⟩) 7)
        dbC8.sessions (delete_movie_by_id dbC8 7).1.sessions) :=
  ⟨by decide,
    (delete_movie_spec dbC8 7).2.2 ⟨7, 1, 101, 2, "b", none⟩ (by decide)⟩

/-!  ### Lemmas for the rating upsert -/

theorem upsertRating_session (st : Store) (mid uid : Nat) (v : Int) :
    (upsertRating st mid uid v).session = st.session := by
  unfold upsertRating; split <;> rfl

theorem upsertRating_movies (st : Store) (mid uid : Nat) (v : Int) :
    (upsertRating st mid uid v).movies = st.movies := by
  unfold upsertRating; split <;> rfl

theorem save_session (st : Store) (mid uid : Nat) (v : Int) :
    (save_or_update_rating st mid uid v).session = st.session := by
  unfold save_or_update_rating recalc_club_rating
  exact upsertRating_session st mid uid v

theorem save_ratings (st : Store) (mid uid : Nat) (v : Int) :
    (save_or_update_rating st mid uid v).ratings =
      (upsertRating st mid uid v).ratings := by
  unfold save_or_update_rating recalc_club_rating
  rfl

theorem ratingTriple_update (sid mid uid : Nat) (v : Int) (r : RatingRow) :
    ratingTriple sid mid uid { r with rating := v } =
      ratingTriple sid mid uid r := rfl

theorem upsert_count (st : Store) (mid uid : Nat) (v : Int)
    (huniq : (st.ratings.filter
      (ratingTriple st.session.id mid uid)).length ≤ 1) :
    ((upsertRating st mid uid v).ratings.filter
      (ratingTriple st.session.id mid uid)).length = 1 := by
  unfold upsertRating
  by_cases hany : st.ratings.any (ratingTriple st.session.id mid uid)
  · rw [if_pos hany]
    dsimp only
    have hcomp : (fun r => ratingTriple st.session.id mid uid
        (if ratingTriple st.session.id mid uid r then { r with rating := v }
          else r)) = ratingTriple st.session.id mid uid := by
      funext r
      by_cases h : ratingTriple st.session.id mid uid r
      · rw [if_pos h, ratingTriple_update, h]
      · rw [if_neg h]
    rw [List.filter_map]
    simp only [Function.comp_def]
    rw [hcomp, List.length_map]
    rcases List.any_eq_true.mp hany with ⟨r, hr, htr⟩
    have hpos : 0 < (st.ratings.filter
        (ratingTriple st.session.id mid uid)).length :=
      List.length_pos.mpr (fun hc =>
        (List.filter_eq_nil_iff.mp hc) r hr htr)
    omega
  · rw [if_neg hany]
    dsimp only
    rw [List.filter_append]
    have hnil : st.ratings.filter (ratingTriple st.session.id mid uid) = [] := by
      apply List.filter_eq_nil_iff.mpr
      intro r hr htr
      exact hany (List.any_eq_true.mpr ⟨r, hr, htr⟩)
    rw [hnil]
    simp [ratingTriple]

theorem upsert_rows (st : Store) (mid uid : Nat) (v : Int) :
    ∀ r ∈ (upsertRating st mid uid v).ratings,
      (ratingTriple st.session.id mid uid r = true → r.rating = v) ∧
      (ratingTriple st.session.id mid uid r = false → r ∈ st.ratings) := by
  unfold upsertRating
  by_cases hany : st.ratings.any (ratingTriple st.session.id mid uid)
  · rw [if_pos hany]
    intro r hr
    dsimp only at hr
    rcases List.mem_map.mp hr with ⟨r0, hr0, heq⟩
    by_cases h : ratingTriple st.session.id mid uid r0
    · rw [if_pos h] at heq
      subst heq
      rw [ratingTriple_update]
      exact ⟨fun _ => rfl, fun hf => absurd h (by simp [hf])⟩
    · rw [if_neg h] at heq
      subst heq
      exact ⟨fun ht => absurd ht (by simpa using h), fun _ => hr0⟩
  · rw [if_neg hany]
    intro r hr
    dsimp only at hr
    rcases List.mem_append.mp hr with h | h
    · refine ⟨fun ht => ?_, fun _ => h⟩
      exact absurd (List.any_eq_true.mpr ⟨r, h, ht⟩) hany
    · have hx : r = ⟨st.session.id, mid, uid, v⟩ := by simpa using h
      subst hx
      refine ⟨fun _ => rfl, fun hf => ?_⟩
      rw [show ratingTriple st.session.id mid uid
        ⟨st.session.id, mid, uid, v⟩ = true by simp [ratingTriple]] at hf
      cases hf

theorem recalc_movies_spec (st : Store) (mid : Nat) :
    ∀ m ∈ (recalc_club_rating st mid).movies, m.id = mid →
      m.clubRating = clubAvg st.ratings mid := by
  intro m hm hid
  unfold recalc_club_rating at hm
  dsimp only at hm
  rcases List.mem_map.mp hm with ⟨m0, hm0, heq⟩
  by_cases h : m0.id == mid
  · rw [if_pos h] at heq
    rw [← heq]
  · rw [if_neg h] at heq
    subst heq
    exact absurd hid (by simpa using h)

theorem length_le_sum_of_one_le (l : List ℚ) (h : ∀ x ∈ l, 1 ≤ x) :
    (l.length : ℚ) ≤ l.sum := by
  induction l with
  | nil => simp
  | cons x xs ih =>
      simp only [List.length_cons, List.sum_cons]
      push_cast
      have hx := h x (List.mem_cons_self x xs)
      have hxs := ih (fun y hy => h y (List.mem_cons_of_mem x hy))
      linarith

theorem clubAvg_eq_some (ratings : List RatingRow) (mid : Nat)
    (hne : ∃ r ∈ ratings, r.movieId = mid)
    (hvals : ∀ r ∈ ratings, 1 ≤ r.rating) :
    clubAvg ratings mid = some (roundTo2
      (((ratings.filter (fun r => r.movieId == mid)).map
          (fun r => (r.rating : ℚ))).sum /
        ((ratings.filter (fun r => r.movieId == mid)).length : ℚ))) := by
  obtain ⟨r0, hr0, hr0m⟩ := hne
  have hmem : r0 ∈ ratings.filter (fun r => r.movieId == mid) :=
    List.mem_filter.mpr ⟨hr0, by simp [hr0m]⟩
  have hrs_ne : ratings.filter (fun r => r.movieId == mid) ≠ [] := by
    intro hc
    rw [hc] at hmem
    exact List.not_mem_nil r0 hmem
  have hemp : (ratings.filter (fun r => r.movieId == mid)).isEmpty = false := by
    cases hc : ratings.filter (fun r => r.movieId == mid) with
    | nil => exact absurd hc hrs_ne
    | cons a l => rfl
  have hlenpos : 0 < ((ratings.filter (fun r => r.movieId == mid)).length : ℚ) := by
    have : 0 < (ratings.filter (fun r => r.movieId == mid)).length :=
      List.length_pos.mpr hrs_ne
    exact_mod_cast this
  have hsum : ((ratings.filter (fun r => r.movieId == mid)).length : ℚ) ≤
      ((ratings.filter (fun r => r.movieId == mid)).map
        (fun r => (r.rating : ℚ))).sum := by
    have := length_le_sum_of_one_le
      ((ratings.filter (fun r => r.movieId == mid)).map
        (fun r => (r.rating : ℚ)))
      (by
        intro x hx
        rcases List.mem_map.mp hx with ⟨r, hr, hrx⟩
        have : 1 ≤ r.rating := hvals r (List.mem_of_mem_filter hr)
        rw [← hrx]
        exact_mod_cast this)
    simpa using this
  have hone : (1 : ℚ) ≤ ((ratings.filter (fun r => r.movieId == mid)).map
      (fun r => (r.rating : ℚ))).sum /
      ((ratings.filter (fun r => r.movieId == mid)).length : ℚ) :=
    (one_le_div hlenpos).mpr hsum
  simp only [clubAvg, hemp, Bool.false_eq_true, if_false]
  rw [if_neg (by intro hc; rw [hc] at hone; linarith)]

/-- C9. Submitting rating `r1` and then `r2` for the same (session,
candidate, participant) triple leaves exactly one rating row for the
triple, holding `r2`; and the candidate's stored club average is the
arithmetic mean of all current ratings of that candidate rounded to two
decimals — reflecting only the participant's latest value. -/
theorem rating_upsert_last_write_wins (st : Store) (mid uid : Nat)
    (r1 r2 : Int)
    (huniq : (st.ratings.filter
      (ratingTriple st.session.id mid uid)).length ≤ 1)
    (hvals : ∀ r ∈ st.ratings, 1 ≤ r.rating)
    (_hr1 : 1 ≤ r1 ∧ r1 ≤ 10) (hr2 : 1 ≤ r2 ∧ r2 ≤ 10) :
    ((save_or_update_rating (save_or_update_rating st mid uid r1)
        mid uid r2).ratings.filter
      (ratingTriple st.session.id mid uid)).length = 1 ∧
    (∀ r ∈ (save_or_update_rating (save_or_update_rating st mid uid r1)
        mid uid r2).ratings,
      ratingTriple st.session.id mid uid r = true → r.rating = r2) ∧
    (∀ m ∈ (save_or_update_rating (save_or_update_rating st mid uid r1)
        mid uid r2).movies, m.id = mid →
      m.clubRating = some (roundTo2
        ((((save_or_update_rating (save_or_update_rating st mid uid r1)
              mid uid r2).ratings.filter
            (fun r => r.movieId == mid)).map
              (fun r => (r.rating : ℚ))).sum /
          (((save_or_update_rating (save_or_update_rating st mid uid r1)
              mid uid r2).ratings.filter
            (fun r => r.movieId == mid)).length : ℚ)))) := by
  have hs1 : (save_or_update_rating st mid uid r1).session = st.session :=
    save_session st mid uid r1
  have htr1 : ratingTriple (save_or_update_rating st mid uid r1).session.id
      mid uid = ratingTriple st.session.id mid uid := by rw [hs1]
  have hra1 : (save_or_update_rating st mid uid r1).ratings =
      (upsertRating st mid uid r1).ratings := save_ratings st mid uid r1
  have hcount1 : ((save_or_update_rating st mid uid r1).ratings.filter
      (ratingTriple st.session.id mid uid)).length = 1 := by
    rw [hra1]
    exact upsert_count st mid uid r1 huniq
  have hrows1 : ∀ r ∈ (save_or_update_rating st mid uid r1).ratings,
      (ratingTriple st.session.id mid uid r = true → r.rating = r1) ∧
      (ratingTriple st.session.id mid uid r = false → r ∈ st.ratings) := by
    rw [hra1]
    exact upsert_rows st mid uid r1
  have hra2 : (save_or_update_rating (save_or_update_rating st mid uid r1)
      mid uid r2).ratings =
      (upsertRating (save_or_update_rating st mid uid r1)
        mid uid r2).ratings :=
    save_ratings (save_or_update_rating st mid uid r1) mid uid r2
  have hcount2 : ((save_or_update_rating (save_or_update_rating st mid uid r1)
      mid uid r2).ratings.filter
      (ratingTriple st.session.id mid uid)).length = 1 := by
    rw [hra2, ← htr1]
    apply upsert_count
    rw [htr1, hcount1]
  have hrows2 : ∀ r ∈ (save_or_update_rating
      (save_or_update_rating st mid uid r1) mid uid r2).ratings,
      (ratingTriple st.session.id mid uid r = true → r.rating = r2) ∧
      (ratingTriple st.session.id mid uid r = false →
        r ∈ (save_or_update_rating st mid uid r1).ratings) := by
    rw [hra2, ← htr1]
    exact upsert_rows (save_or_update_rating st mid uid r1) mid uid r2
  have hvals2 : ∀ r ∈ (save_or_update_rating
      (save_or_update_rating st mid uid r1) mid uid r2).ratings,
      1 ≤ r.rating := by
    intro r hr
    cases htr : ratingTriple st.session.id mid uid r with
    | true =>
        rw [(hrows2 r hr).1 htr]
        exact hr2.1
    | false =>
        have hmem1 := (hrows2 r hr).2 htr
        have hmem0 := (hrows1 r hmem1).2 htr
        exact hvals r hmem0
  have hne2 : ∃ r ∈ (save_or_update_rating
      (save_or_update_rating st mid uid r1) mid uid r2).ratings,
      r.movieId = mid := by
    have hfil_ne : (save_or_update_rating
        (save_or_update_rating st mid uid r1) mid uid r2).ratings.filter
        (ratingTriple st.session.id mid uid) ≠ [] := by
      intro hc
      rw [hc] at hcount2
      simp at hcount2
    obtain ⟨r, hr⟩ := List.exists_mem_of_ne_nil _ hfil_ne
    have hrm := List.mem_of_mem_filter hr
    have htr := List.of_mem_filter hr
    unfold ratingTriple at htr
    rw [Bool.and_eq_true, Bool.and_eq_true] at htr
    exact ⟨r, hrm, by simpa using htr.1.2⟩
  refine ⟨hcount2, fun r hr => (hrows2 r hr).1, ?_⟩
  intro m hm hid
  have hmv := recalc_movies_spec
    (upsertRating (save_or_update_rating st mid uid r1) mid uid r2) mid m
    hm hid
  rw [hmv]
  rw [show (upsertRating (save_or_update_rating st mid uid r1)
      mid uid r2).ratings =
    (save_or_update_rating (save_or_update_rating st mid uid r1)
      mid uid r2).ratings from hra2.symm]
  exact clubAvg_eq_some _ mid hne2 hvals2

/-- Closed witness for `rating_upsert_last_write_wins`: the spec's
7-then-9 idempotence scenario. -/
theorem rating_upsert_last_write_wins_witness :
    ((stC9.ratings.filter (ratingTriple stC9.session.id 5 3)).length ≤ 1 ∧
      (∀ r ∈ stC9.ratings, 1 ≤ r.rating) ∧
      ((1 : Int) ≤ 7 ∧ (7 : Int) ≤ 10) ∧ ((1 : Int) ≤ 9 ∧ (9 : Int) ≤ 10)) ∧
    (((save_or_update_rating (save_or_update_rating stC9 5 3 7)
        5 3 9).ratings.filter (ratingTriple stC9.session.id 5 3)).length =
        1 ∧
    (∀ r ∈ (save_or_update_rating (save_or_update_rating stC9 5 3 7)
        5 3 9).ratings,
      ratingTriple stC9.session.id 5 3 r = true → r.rating = 9) ∧
    (∀ m ∈ (save_or_update_rating (save_or_update_rating stC9 5 3 7)
        5 3 9).movies, m.id = 5 →
      m.clubRating = some (roundTo2
        ((((save_or_update_rating (save_or_update_rating stC9 5 3 7)
              5 3 9).ratings.filter (fun r => r.movieId == 5)).map
              (fun r => (r.rating : ℚ))).sum /
          (((save_or_update_rating (save_or_update_rating stC9 5 3 7)
              5 3 9).ratings.filter (fun r => r.movieId == 5)).length :
            ℚ))))) :=
  ⟨⟨by decide, by decide, by decide, by decide⟩,
    rating_upsert_last_write_wins stC9 5 3 7 9 (by decide) (by decide)
      (by decide) (by decide)⟩

/-- C10. The helper returns the stored rows in exactly the order of the
requested id list, silently dropping absent ids: the returned id sequence
is the input list filtered to the ids present in the table, every
returned row is a table row, the result is never longer than the request
(so a tie set shrunk by deletions is detected by the shorter result), and
when every id is present the id sequence is the request itself. -/
theorem load_movies_by_ids_spec (movies : List MovieRow) (ids : List Nat) :
    (load_movies_by_ids movies ids).map (fun m => m.id) =
      ids.filter (fun i => movies.any (fun m => m.id == i)) ∧
    (∀ m ∈ load_movies_by_ids movies ids, m ∈ movies) ∧
    (load_movies_by_ids movies ids).length ≤ ids.length ∧
    ((∀ i ∈ ids, movies.any (fun m => m.id == i) = true) →
      (load_movies_by_ids movies ids).map (fun m => m.id) = ids) := by
  have main : ∀ l : List Nat,
      (load_movies_by_ids movies l).map (fun m => m.id) =
        l.filter (fun i => movies.any (fun m => m.id == i)) ∧
      (∀ m ∈ load_movies_by_ids movies l, m ∈ movies) ∧
      (load_movies_by_ids movies l).length ≤ l.length := by
    intro l
    induction l with
    | nil =>
        refine ⟨rfl, ?_, ?_⟩ <;> simp [load_movies_by_ids]
    | cons i t ih =>
        cases hf : movies.reverse.find? (fun m => m.id == i) with
        | none =>
            have hany : (movies.any (fun m => m.id == i)) = false := by
              rw [List.any_eq_false]
              intro m hm
              have := List.find?_eq_none.mp hf m (List.mem_reverse.mpr hm)
              simpa using this
            refine ⟨?_, ?_, ?_⟩
            · simp only [load_movies_by_ids, List.filterMap_cons, hf,
                List.filter_cons, hany]
              simpa [load_movies_by_ids] using ih.1
            · intro m hm
              simp only [load_movies_by_ids, List.filterMap_cons, hf] at hm
              exact ih.2.1 m hm
            · simp only [load_movies_by_ids, List.filterMap_cons, hf,
                List.length_cons]
              exact le_trans ih.2.2 (Nat.le_succ _)
        | some m =>
            have hmem : m ∈ movies :=
              List.mem_reverse.mp (List.mem_of_find?_eq_some hf)
            have hid := List.find?_some hf
            have hany : (movies.any (fun m => m.id == i)) = true :=
              List.any_eq_true.mpr ⟨m, hmem, hid⟩
            refine ⟨?_, ?_, ?_⟩
            · simp only [load_movies_by_ids, List.filterMap_cons, hf,
                List.filter_cons, hany, List.map_cons, if_true]
              rw [show m.id = i from by simpa using hid]
              have ht := ih.1
              simp only [load_movies_by_ids] at ht
              rw [ht]
            · intro m' hm'
              simp only [load_movies_by_ids, List.filterMap_cons, hf,
                List.mem_cons] at hm'
              rcases hm' with h | h
              · subst h; exact hmem
              · exact ih.2.1 m' h
            · simp only [load_movies_by_ids, List.filterMap_cons, hf,
                List.length_cons]
              exact Nat.succ_le_succ ih.2.2
  refine ⟨(main ids).1, (main ids).2.1, (main ids).2.2, ?_⟩
  intro hall
  rw [(main ids).1]
  exact List.filter_eq_self.mpr hall

/-- Closed witness for `load_movies_by_ids_spec`: requesting ids
`[2, 1, 99]` against a two-row table (id 99 absent) returns the rows for
2 and 1 in that order. -/
theorem load_movies_by_ids_spec_witness :
    (load_movies_by_ids
        [⟨1, 1, 100, 1, "k1", none⟩, ⟨2, 1, 101, 1, "k2", none⟩]
        [2, 1, 99]).map (fun m => m.id) =
      [2, 1, 99].filter (fun i =>
        [⟨1, 1, 100, 1, "k1", none⟩,
          (⟨2, 1, 101, 1, "k2", none⟩ : MovieRow)].any
          (fun m => m.id == i)) ∧
    (∀ m ∈ load_movies_by_ids
        [⟨1, 1, 100, 1, "k1", none⟩, ⟨2, 1, 101, 1, "k2", none⟩]
        [2, 1, 99],
      m ∈ [⟨1, 1, 100, 1, "k1", none⟩,
        (⟨2, 1, 101, 1, "k2", none⟩ : MovieRow)]) ∧
    (load_movies_by_ids
        [⟨1, 1, 100, 1, "k1", none⟩, ⟨2, 1, 101, 1, "k2", none⟩]
        [2, 1, 99]).length ≤ ([2, 1, 99] : List Nat).length ∧
    ((∀ i ∈ ([2, 1, 99] : List Nat),
        [⟨1, 1, 100, 1, "k1", none⟩,
          (⟨2, 1, 101, 1, "k2", none⟩ : MovieRow)].any
          (fun m => m.id == i) = true) →
      (load_movies_by_ids
          [⟨1, 1, 100, 1, "k1", none⟩, ⟨2, 1, 101, 1, "k2", none⟩]
          [2, 1, 99]).map (fun m => m.id) = [2, 1, 99]) :=
  load_movies_by_ids_spec
    [⟨1, 1, 100, 1, "k1", none⟩, ⟨2, 1, 101, 1, "k2", none⟩] [2, 1, 99]

end FilmBot
